import Mathlib

/-!
Verification development for the `ktr` enriched-traceroute library.

The Rust sources are shallowly embedded: pure logic becomes Lean
functions; IO (socket reads, the capture channel, the RNG, reverse DNS,
PeeringDB) is supplied by explicit environment records, so every
function here is executable.  Machine integers are modelled as `Nat`
with explicit bounds/`% 2^w` where the source relies on width.
-/

namespace Ktr

set_option maxRecDepth 100000

/-! ## IP addresses (`std::net::IpAddr`) and the public-IP predicate
from `ktr_lib/src/trace.rs` (`is_public`). -/

/-- `IpAddr`: v4 as four octets, v6 as the 128-bit value. -/
inductive IpAddr where
  | v4 (a b c d : Nat)
  | v6 (bits : Nat)
deriving DecidableEq

/-- `Ipv4Addr::is_private`: 10/8, 172.16/12, 192.168/16. -/
def ipv4IsPrivate (a b _c _d : Nat) : Bool :=
  a == 10 || (a == 172 && 16 ≤ b && b ≤ 31) || (a == 192 && b == 168)

/-- `Ipv4Addr::is_documentation`: 192.0.2/24, 198.51.100/24, 203.0.113/24. -/
def ipv4IsDocumentation (a b c _d : Nat) : Bool :=
  (a == 192 && b == 0 && c == 2) || (a == 198 && b == 51 && c == 100) ||
    (a == 203 && b == 0 && c == 113)

/-- `is_public` from `trace.rs`: an IPv4 is public iff it is in none of the
reserved classes; an IPv6 is public iff not loopback/multicast/unspecified. -/
def isPublic : IpAddr → Bool
  | .v4 a b c d =>
      !(ipv4IsPrivate a b c d
        || a == 127                                   -- is_loopback
        || (a == 255 && b == 255 && c == 255 && d == 255) -- is_broadcast
        || (224 ≤ a && a ≤ 239)                       -- is_multicast
        || (a == 169 && b == 254)                     -- is_link_local
        || (a == 0 && b == 0 && c == 0 && d == 0)     -- is_unspecified
        || ipv4IsDocumentation a b c d)
  | .v6 bits =>
      !(bits == 1                                     -- is_loopback, ::1
        || bits >>> 120 == 0xff                       -- is_multicast, ff00::/8
        || bits == 0)                                 -- is_unspecified, ::

/-! ## WHOIS resolver, `ktr_lib/src/whois_net.rs`

Socket reads are embodied as `LineEvent`s: what `self.lines.next()`
yields on one call — a line, an IO error of some kind, or end of
stream.  Reconnection (`whois_connect` via `refer`/`whois`) is supplied
by the environment as a function from server name to outcome. -/

/-- The `io::ErrorKind`s distinguished by `whois_net.rs`. -/
inductive ErrKind where
  | wouldBlock
  | timedOut
  | other
deriving DecidableEq

/-- One result of `lines.next()` on a buffered TCP stream. -/
inductive LineEvent where
  | line (s : String)
  | ioErr (k : ErrKind)
  | eof
deriving DecidableEq

/-- `AsnResult` from `whois_net.rs` (ASN as the `u32` payload). -/
inductive AsnResult where
  | pending
  | found (asn : Nat)
  | notFound
deriving DecidableEq

/-- `str::trim` (over the whitespace characters Lean's `Char.isWhitespace`
recognises), computed on the character list so it evaluates in the kernel. -/
def strTrim (s : String) : String :=
  ⟨((s.data.dropWhile Char.isWhitespace).reverse.dropWhile Char.isWhitespace).reverse⟩

/-- String split at the first occurrence of a character (`str::split_once(char)`). -/
def splitOnceCharAux (c : Char) : List Char → Option (List Char × List Char)
  | [] => none
  | x :: xs =>
      if x = c then some ([], xs)
      else match splitOnceCharAux c xs with
        | some (l, r) => some (x :: l, r)
        | none => none

/-- `str::split_once(c)` on strings. -/
def splitOnceChar (s : String) (c : Char) : Option (String × String) :=
  (splitOnceCharAux c s.data).map fun p => (⟨p.1⟩, ⟨p.2⟩)

/-- Is `p` a prefix of `l`? (helper for substring `split_once`). -/
def startsWithChars : List Char → List Char → Bool
  | [], _ => true
  | _ :: _, [] => false
  | p :: ps, x :: xs => p == x && startsWithChars ps xs

/-- Split at the first occurrence of a (nonempty) substring
(`str::split_once(&str)`). -/
def splitOnceSubAux (pat : List Char) : List Char → Option (List Char × List Char)
  | [] => none
  | x :: xs =>
      if startsWithChars pat (x :: xs) then some ([], (x :: xs).drop pat.length)
      else match splitOnceSubAux pat xs with
        | some (l, r) => some (x :: l, r)
        | none => none

/-- `str::split_once(pat)` on strings. -/
def splitOnceSub (s pat : String) : Option (String × String) :=
  (splitOnceSubAux pat.data s.data).map fun p => (⟨p.1⟩, ⟨p.2⟩)

/-- ASCII lowercase of one character (`u8::to_ascii_lowercase`). -/
def asciiLower (c : Char) : Char :=
  if 'A' ≤ c ∧ c ≤ 'Z' then Char.ofNat (c.toNat + 32) else c

/-- `str::eq_ignore_ascii_case`. -/
def eqIgnoreAsciiCase (s t : String) : Bool :=
  s.data.map asciiLower == t.data.map asciiLower

/-- `str::parse::<u32>()`: optional leading plus sign, one or more ASCII
digits, value below `2^32`. -/
def parseU32 (s : String) : Option Nat :=
  let cs := match s.data with
    | '+' :: rest => rest
    | cs => cs
  if cs.isEmpty then none
  else if cs.all Char.isDigit then
    let n := cs.foldl (fun acc c => acc * 10 + (c.toNat - 48)) 0
    if n < 2 ^ 32 then some n else none
  else none

/-- `try_parse_asn_unprefixed`: trim, then parse as a bare `u32`. -/
def tryParseAsnUnprefixed (text : String) : Option Nat :=
  parseU32 (strTrim text)

def asLiteral : String := "AS"

/-- `try_parse_asn_prefixed`: split at the first literal occurrence of
the two letters in `asLiteral`, discard what precedes, parse the rest. -/
def tryParseAsnPrefixed (text : String) : Option Nat :=
  match splitOnceSub text asLiteral with
  | some (_, num) => tryParseAsnUnprefixed num
  | none => none

/-- `try_parse_asn_ignore_prefix`: prefixed form first, bare form second. -/
def tryParseAsnAnyForm (text : String) : Option Nat :=
  (tryParseAsnPrefixed text).orElse fun _ => tryParseAsnUnprefixed text

/-- State of a `NormalAsnServer` (IANA/RADB style, colon-separated lines).
The buffered TCP stream itself lives in the environment. -/
structure NormalAsnServer where
  ip : IpAddr
  lineOrigin : Option Nat
  lineRefer : Option String
  lineWhois : Option String
deriving DecidableEq

def keyOriginAs : String := "originas"
def keyOrigin : String := "origin"
def keyRefer : String := "refer"
def keyWhois : String := "whois"

/-- Outcome of `whois_connect` + `NormalAsnServer::connect` for a redirect,
supplied by the environment: either a freshly connected server or an IO
error kind. -/
def ConnectFn : Type := IpAddr → String → Except ErrKind NormalAsnServer

/-- `NormalAsnServer::poll`, one call, fed the result of `lines.next()`.
Mirrors `whois_net.rs` lines 107-148 exactly, including the error
condition `kind != WouldBlock || kind == TimedOut`. -/
def NormalAsnServer.poll (connect : ConnectFn) (s : NormalAsnServer)
    (ev : LineEvent) : Except ErrKind (NormalAsnServer × AsnResult) :=
  match ev with
  | .line l =>
      match splitOnceChar l ':' with
      | some (key, value) =>
          let key := strTrim key
          let value := strTrim value
          if eqIgnoreAsciiCase key keyOriginAs then
            match tryParseAsnAnyForm value with
            | some asn => .ok (s, .found asn)
            | none => .ok (s, .pending)
          else if eqIgnoreAsciiCase key keyOrigin then
            match tryParseAsnAnyForm value with
            | some asn => .ok ({ s with lineOrigin := some asn }, .pending)
            | none => .ok (s, .pending)
          else if eqIgnoreAsciiCase key keyRefer then
            .ok ({ s with lineRefer := some value }, .pending)
          else if eqIgnoreAsciiCase key keyWhois then
            .ok ({ s with lineWhois := some value }, .pending)
          else .ok (s, .pending)
      | none => .ok (s, .pending)
  | .ioErr k =>
      -- Verbatim from the source: `if error.kind() != WouldBlock
      -- || error.kind() == TimedOut { return Err(error); }`
      if k ≠ .wouldBlock ∨ k = .timedOut then .error k
      else .ok (s, .pending)
  | .eof =>
      match s.lineOrigin with
      | some asn => .ok (s, .found asn)
      | none =>
          match s.lineRefer with
          | some refer => (connect s.ip refer).map fun s' => (s', .pending)
          | none =>
              match s.lineWhois with
              | some whois => (connect s.ip whois).map fun s' => (s', .pending)
              | none => .ok (s, .notFound)

/-- `CymruAsnServer::poll`, one call, fed the result of `lines.next()`.
Mirrors `whois_net.rs` lines 165-186 (the Cymru server holds no state
beyond its stream). -/
def cymruPoll (ev : LineEvent) : Except ErrKind AsnResult :=
  match ev with
  | .line l =>
      match splitOnceChar l '|' with
      | some (asn, _) =>
          .ok (match tryParseAsnUnprefixed (strTrim asn) with
            | some a => .found a
            | none => .pending)
      | none => .ok .pending
  | .ioErr k =>
      if k = .wouldBlock ∨ k = .timedOut then .ok .pending
      else .error k
  | .eof => .ok .notFound

/-- `AsnFinder`: the three optional sub-sources (a failed connection is
`none`; the Cymru server carries no resolver state). -/
structure AsnFinder where
  iana : Option NormalAsnServer
  radb : Option NormalAsnServer
  cymru : Option Unit
deriving DecidableEq

/-- `Result::ok` — demote an `Except` to an `Option`. -/
def exceptOk : Except ε α → Option α
  | .ok a => some a
  | .error _ => none

/-- `AsnFinder::lookup`: each connection attempt is soft (`.ok()`), and the
constructor itself always returns `Ok`. -/
def AsnFinder.lookup (iana radb : Except ErrKind NormalAsnServer)
    (cymru : Except ErrKind Unit) : Except ErrKind AsnFinder :=
  .ok { iana := exceptOk iana, radb := exceptOk radb, cymru := exceptOk cymru }

/-- One slot of `AsnFinder::poll` for a normal server:
`opt.as_mut().and_then(|s| s.poll().ok()).unwrap_or(NotFound)`, keeping the
(mutated-on-success) server state. -/
def pollNormalSlot (connect : ConnectFn) (slot : Option NormalAsnServer)
    (ev : LineEvent) : Option NormalAsnServer × AsnResult :=
  match slot with
  | none => (none, .notFound)
  | some s =>
      match s.poll connect ev with
      | .ok (s', r) => (some s', r)
      | .error _ => (some s, .notFound)

/-- One slot of `AsnFinder::poll` for the Cymru server. -/
def pollCymruSlot (slot : Option Unit) (ev : LineEvent) : AsnResult :=
  match slot with
  | none => .notFound
  | some _ =>
      match cymruPoll ev with
      | .ok r => r
      | .error _ => .notFound

/-- The `for result in results` loop: first `Found` wins. -/
def firstFound : List AsnResult → Option Nat
  | [] => none
  | .found a :: _ => some a
  | _ :: rest => firstFound rest

def AsnResult.isNotFound : AsnResult → Bool
  | .notFound => true
  | _ => false

/-- `AsnFinder::poll`: poll the three slots in declaration order
(IANA, RADB, Cymru), then aggregate. -/
def AsnFinder.poll (connect : ConnectFn) (f : AsnFinder)
    (evIana evRadb evCymru : LineEvent) : AsnFinder × AsnResult :=
  let (iana', r1) := pollNormalSlot connect f.iana evIana
  let (radb', r2) := pollNormalSlot connect f.radb evRadb
  let r3 := pollCymruSlot f.cymru evCymru
  let results := [r1, r2, r3]
  let res :=
    match firstFound results with
    | some a => AsnResult.found a
    | none =>
        if results.all AsnResult.isNotFound then AsnResult.notFound
        else AsnResult.pending
  ({ iana := iana', radb := radb', cymru := f.cymru }, res)

def AsnResult.isFoundB : AsnResult → Bool
  | .found _ => true
  | _ => false

/-! ## Raw traceroute channel, `ktr_lib/src/traceroute_net.rs`

Frames are byte lists.  The pnet packet constructors return `none` when
the buffer is below the fixed minimum header size, field accessors read
fixed offsets, and payload slices are guarded (an out-of-range slice is
empty) — matching the pnet packet API the source calls into. -/

/-- `TracerouteResult` from `traceroute_net.rs` (`PacketId` as its `u16`). -/
inductive TracerouteResult where
  | icmpReply (ip : IpAddr) (id : Nat)
  | icmpTimeExceeded (ip : IpAddr) (id : Nat)
  | icmpDestinationUnreachable (ip : IpAddr)
deriving DecidableEq

/-- Big-endian 16-bit value from two bytes. -/
def be16 (hi lo : Nat) : Nat := hi * 256 + lo

/-- Byte at an offset (only read behind a length guard). -/
def byteAt (b : List Nat) (i : Nat) : Nat := b.getD i 0

/-- `EthernetPacket::new`: needs the 14-byte header; yields the ethertype
(bytes 12-13) and the payload. -/
def ethernetNew (b : List Nat) : Option (Nat × List Nat) :=
  if 14 ≤ b.length then some (be16 (byteAt b 12) (byteAt b 13), b.drop 14) else none

/-- `Ipv4Packet::new`: needs the 20-byte fixed header. -/
def ipv4New (b : List Nat) : Option (List Nat) :=
  if 20 ≤ b.length then some b else none

def ipv4Source (b : List Nat) : IpAddr :=
  .v4 (byteAt b 12) (byteAt b 13) (byteAt b 14) (byteAt b 15)

def ipv4Identification (b : List Nat) : Nat := be16 (byteAt b 4) (byteAt b 5)

def ipv4Proto (b : List Nat) : Nat := byteAt b 9

/-- `Ipv4Packet::payload`: past the fixed header plus options
(`header_length * 4` bytes in total, saturating at the fixed 20). -/
def ipv4Payload (b : List Nat) : List Nat :=
  b.drop (max (4 * (byteAt b 0 % 16)) 20)

/-- `Ipv6Packet::new`: needs the 40-byte header. -/
def ipv6New (b : List Nat) : Option (List Nat) :=
  if 40 ≤ b.length then some b else none

/-- Source address: bytes 8-23 as the 128-bit value. -/
def ipv6Source (b : List Nat) : IpAddr :=
  .v6 (((b.drop 8).take 16).foldl (fun acc x => acc * 256 + x) 0)

def ipv6NextHeader (b : List Nat) : Nat := byteAt b 6

/-- The header's payload-length field (bytes 4-5). -/
def ipv6PayloadLength (b : List Nat) : Nat := be16 (byteAt b 4) (byteAt b 5)

/-- `Ipv6Packet::payload`: the bytes past the 40-byte header, truncated to
the header's payload-length field (pnet bounds the payload slice by that
field, clamped to the buffer end). -/
def ipv6Payload (b : List Nat) : List Nat := (b.drop 40).take (ipv6PayloadLength b)

/-- `IcmpPacket::new` / `Icmpv6Packet::new`: type, code, checksum — 4 bytes. -/
def icmpNew (b : List Nat) : Option (List Nat) :=
  if 4 ≤ b.length then some b else none

def icmpType (b : List Nat) : Nat := byteAt b 0

/-- `EchoReplyPacket::new` on the whole ICMP buffer: 8-byte header; yields
the identifier (bytes 4-5). -/
def echoReplyNew (b : List Nat) : Option Nat :=
  if 8 ≤ b.length then some (be16 (byteAt b 4) (byteAt b 5)) else none

/-- `TimeExceededPacket::new` on the whole ICMP buffer: 8-byte header
(type, code, checksum, 4 unused bytes); yields the quoted payload. -/
def timeExceededNew (b : List Nat) : Option (List Nat) :=
  if 8 ≤ b.length then some (b.drop 8) else none

/-- Parse one received Ethernet frame as `TracerouteChannel::poll` does
(`traceroute_net.rs` lines 190-268).  `panic` marks the one spot where the
source calls `.unwrap()` instead of `?`: `Ipv6Packet::new(...).unwrap()`. -/
inductive ParseOutcome where
  | panic
  | ok (r : Option TracerouteResult)
deriving DecidableEq

def channelParseFrame (frame : List Nat) : ParseOutcome :=
  match ethernetNew frame with
  | none => .ok none
  | some (ety, pl) =>
      if ety = 0x0800 then      -- EtherTypes::Ipv4
        match ipv4New pl with
        | none => .ok none
        | some ip4 =>
            let sourceIp := ipv4Source ip4
            if ipv4Proto ip4 = 1 then   -- IpNextHeaderProtocols::Icmp
              match icmpNew (ipv4Payload ip4) with
              | none => .ok none
              | some icmpB =>
                  if icmpType icmpB = 0 then      -- EchoReply
                    match echoReplyNew icmpB with
                    | none => .ok none
                    | some ident => .ok (some (.icmpReply sourceIp ident))
                  else if icmpType icmpB = 11 then -- TimeExceeded
                    match timeExceededNew icmpB with
                    | none => .ok none
                    | some inner =>
                        match ipv4New inner with
                        | none => .ok none
                        | some innerB =>
                            .ok (some (.icmpTimeExceeded sourceIp
                              (ipv4Identification innerB)))
                  else if icmpType icmpB = 3 then -- DestinationUnreachable
                    .ok (some (.icmpDestinationUnreachable sourceIp))
                  else .ok none
            else .ok none
      else if ety = 0x86DD then -- EtherTypes::Ipv6
        match ipv6New pl with
        | none => .panic        -- `.unwrap()` in the source
        | some ip6 =>
            let sourceIp := ipv6Source ip6
            if ipv6NextHeader ip6 = 58 then -- IpNextHeaderProtocols::Icmpv6
              match icmpNew (ipv6Payload ip6) with
              | none => .ok none
              | some icmpB =>
                  if icmpType icmpB = 129 then    -- Icmpv6 EchoReply
                    match echoReplyNew icmpB with
                    | none => .ok none
                    | some ident => .ok (some (.icmpReply sourceIp ident))
                  else if icmpType icmpB = 3 then -- Icmpv6 TimeExceeded
                    match timeExceededNew icmpB with
                    | none => .ok none
                    | some inner =>
                        -- the source parses the quoted packet as IPv4
                        match ipv4New inner with
                        | none => .ok none
                        | some innerB =>
                            .ok (some (.icmpTimeExceeded sourceIp
                              (ipv4Identification innerB)))
                  else if icmpType icmpB = 1 then -- Icmpv6 DestinationUnreachable
                    .ok (some (.icmpDestinationUnreachable sourceIp))
                  else .ok none
            else .ok none
      else .ok none

/-- What `self.rx.next()` produced on one call. -/
inductive RxEvent where
  | frame (b : List Nat)
  | errTimedOut
  | errOther
deriving DecidableEq

/-- Full result of `TracerouteChannel::poll`: a panic, a propagated
`RxChannelIo` error, or a (possibly empty) classification. -/
inductive ChannelPollRes where
  | panic
  | err
  | ok (r : Option TracerouteResult)
deriving DecidableEq

/-- `TracerouteChannel::poll`: frames are parsed, `TimedOut` yields `None`,
other IO errors surface as `RxChannelIo`. -/
def channelPoll : RxEvent → ChannelPollRes
  | .frame b =>
      match channelParseFrame b with
      | .panic => .panic
      | .ok r => .ok r
  | .errTimedOut => .ok none
  | .errOther => .err

/-! ### `TracerouteChannel::send_echo`, byte level -/

/-- `pnet::util::checksum(data, skipword)`: one's-complement sum of the
big-endian 16-bit words, the `skipword`-th word skipped, carries folded
back in, complemented. -/
def sumWords (skipword : Nat) : Nat → List Nat → Nat
  | _, [] => 0
  | i, [x] => if i = skipword then 0 else x * 256
  | i, x :: y :: rest =>
      (if i = skipword then 0 else be16 x y) + sumWords skipword (i + 1) rest

def foldCarry (n : Nat) : Nat := n % 65536 + n / 65536

def pnetChecksum (data : List Nat) (skipword : Nat) : Nat :=
  65535 - foldCarry (foldCarry (sumWords skipword 0 data)) % 65536

/-- The ICMP Echo Request payload built by `send_echo` for IPv4: type 8,
code 0, checksum over the packet skipping the checksum word, identifier
and sequence big-endian. -/
def icmpEchoRequestBytes (id seq : Nat) : List Nat :=
  let ck := pnetChecksum [8, 0, 0, 0, id / 256, id % 256, seq / 256, seq % 256] 1
  [8, 0, ck / 256, ck % 256, id / 256, id % 256, seq / 256, seq % 256]

/-- The 28-byte IPv4 packet built by `send_echo(dst, ttl, id)` (sequence
from the channel counter): version 4, header length 5, total length 28,
identification `id`, DontFragment, the given TTL, protocol ICMP,
source unspecified, header checksum left to the kernel. -/
def sendEchoV4Bytes (a b c d ttl id seq : Nat) : List Nat :=
  [0x45, 0, 0, 28, id / 256, id % 256, 0x40, 0, ttl, 1, 0, 0,
    0, 0, 0, 0, a, b, c, d] ++ icmpEchoRequestBytes id seq

/-- A 128-bit value as 16 big-endian bytes. -/
def bytesOfBits128 (n : Nat) : List Nat :=
  (List.range 16).map fun i => n >>> ((15 - i) * 8) % 256

/-- The ICMPv6 Echo Request built by `send_echo` for IPv6: type 128,
code 0, checksum left to the kernel. -/
def icmpv6EchoRequestBytes (id seq : Nat) : List Nat :=
  [128, 0, 0, 0, id / 256, id % 256, seq / 256, seq % 256]

/-- The 48-byte IPv6 packet built by `send_echo(dst, ttl, id)`: version 6,
flow label = `id`, payload length 8, next header ICMPv6, hop limit = TTL,
source unspecified. -/
def sendEchoV6Bytes (dst : Nat) (ttl id seq : Nat) : List Nat :=
  [0x60, id >>> 16 % 16, id / 256 % 256, id % 256, 0, 8, 58, ttl]
    ++ bytesOfBits128 0 ++ bytesOfBits128 dst ++ icmpv6EchoRequestBytes id seq

/-! ## Trace state machine, `ktr_lib/src/trace.rs`

`Trace::poll` does IO through the channel, the RNG, reverse DNS,
PeeringDB and the per-hop ASN finders.  A poll is embedded as a pure
function over a `TraceEnv` (the outcomes those collaborators would
produce) plus a script of channel-poll outcomes, threading a `PollSt`
that also records the observable side effects (probes sent, lookups
created, finder polls made). -/

/-- A PeeringDB network record; its contents are opaque to `trace.rs`. -/
structure Network where
  tag : Nat
deriving DecidableEq

/-- `NetworkInfo` from `trace.rs`. -/
structure NetworkInfo where
  asn : Nat
  network : Option Network
deriving DecidableEq

/-- `Hop` from `trace.rs`.  A `FindingAsn` hop's finder handle is opaque
at this level; its poll outcomes come from the environment, keyed by hop
slot. -/
inductive Hop where
  | unused
  | pending (id : Nat)
  | findingAsn (ip : IpAddr)
  | done (ip : IpAddr) (hostname : Option String) (networkInfo : Option NetworkInfo)
deriving DecidableEq

inductive TerminationReason where
  | done
  | destinationUnreachable
  | destinationTimeout
  | completionTimeout
deriving DecidableEq

inductive DidUpdate where
  | yes
  | no
deriving DecidableEq

/-- `DidUpdate::or`. -/
def DidUpdate.or : DidUpdate → DidUpdate → DidUpdate
  | .yes, _ => .yes
  | _, .yes => .yes
  | .no, .no => .no

/-- `TraceState` (instants as absolute `Nat` times). -/
inductive TraceState where
  | notStarted
  | onHop (startedAt index : Nat)
  | sentAllRequests (startedAt lastRetry : Nat)
  | reachedDestination (startedAt lastRetry : Nat)
  | terminated (reason : TerminationReason)
deriving DecidableEq

/-- `TraceConfig` (durations as `Nat`). -/
structure TraceConfig where
  maxHops : Nat
  waitTimePerHop : Nat
  retryFrequency : Nat
  destinationTimeout : Nat
  completionTimeout : Nat
  asnCacheSize : Nat
deriving DecidableEq

/-- The ASN cache, keyed by IP, caching both hits (`some asn`) and
negative results (`none`).  Modelled as an association list with
newest-first shadowing; the bounded eviction of `quick_cache` is not
modelled — reads see the most recent insertion, as in the source. -/
abbrev AsnCache : Type := List (IpAddr × Option Nat)

/-- `Cache::get`. -/
def cacheGet (c : AsnCache) (ip : IpAddr) : Option (Option Nat) :=
  match c.find? (fun e => e.1 == ip) with
  | some e => some e.2
  | none => none

/-- `Cache::insert`. -/
def cacheInsert (c : AsnCache) (ip : IpAddr) (v : Option Nat) : AsnCache :=
  (ip, v) :: c

/-- The `Trace` struct: destination, state, config, the fixed 255-slot
hop buffer, the used-hops count, and the per-trace ASN cache. -/
structure Trace where
  dstIp : IpAddr
  state : TraceState
  config : TraceConfig
  hopsBuffer : List Hop
  usedHops : Nat
  asnCache : AsnCache
deriving DecidableEq

/-- `Trace::new`. -/
def Trace.new (dstIp : IpAddr) (config : TraceConfig) : Trace :=
  { dstIp, state := .notStarted, config,
    hopsBuffer := List.replicate 255 .unused, usedHops := 0, asnCache := [] }

/-- `Trace::hops`: the used slice of the hop buffer. -/
def Trace.hops (t : Trace) : List Hop := t.hopsBuffer.take t.usedHops

/-- `Trace::all_hops_done`. -/
def Trace.allHopsDone (t : Trace) : Bool :=
  t.hops.all fun h => match h with | .done _ _ _ => true | _ => false

/-- Outcome of one `dns_lookup::lookup_addr` call. -/
inductive RdnsRes where
  | host (h : String)
  | notFound
  | err
deriving DecidableEq

/-- Outcome of one `PeeringDbManager::network_by_asn` call. -/
inductive PdbRes where
  | ok (n : Option Network)
  | err
deriving DecidableEq

/-- Outcome of one `AsnFinder::poll` call for a hop's finder. -/
inductive FinderRes where
  | ok (r : AsnResult)
  | err
deriving DecidableEq

/-- Outcome of one `TracerouteChannel::poll` call as the trace sees it. -/
inductive ChanRes where
  | ok (r : Option TracerouteResult)
  | err
deriving DecidableEq

/-- The kinds of `TraceError`. -/
inductive TraceErrorK where
  | traceroute
  | asnLookup
  | rdns
  | peeringDb
deriving DecidableEq

/-- Environment for one `Trace::poll` call. -/
structure TraceEnv where
  now : Nat
  rng : Nat → Nat
  rdns : IpAddr → RdnsRes
  pdb : Nat → PdbRes
  finder : Nat → FinderRes
  sendFail : Nat → Bool

/-- Threaded world state during one poll: the remaining channel script
and the observable side effects performed so far. -/
structure PollSt where
  packets : List ChanRes
  rngIdx : Nat
  sends : List (IpAddr × Nat × Nat)
  lookups : List IpAddr
  finderPolls : List Nat
  channelPolls : Nat
deriving DecidableEq

def PollSt.init (packets : List ChanRes) : PollSt :=
  { packets, rngIdx := 0, sends := [], lookups := [], finderPolls := [],
    channelPolls := 0 }

/-- Result of a fallible step: `panic` is the debug-build `u8` underflow
in `start_next_hop`; `error` is a propagated `TraceError`. -/
inductive Outcome (α : Type) where
  | panic
  | error (e : TraceErrorK)
  | ok (a : α)
deriving DecidableEq

/-- `do_rdns`: a DNS `NotFound` is a `None` hostname; other errors are
`TraceError::Rdns`. -/
def doRdns (env : TraceEnv) (ip : IpAddr) : Except TraceErrorK (Option String) :=
  match env.rdns ip with
  | .host h => .ok (some h)
  | .notFound => .ok none
  | .err => .error .rdns

/-- `get_network_info`. -/
def getNetworkInfo (env : TraceEnv) (asn : Nat) : Except TraceErrorK NetworkInfo :=
  match env.pdb asn with
  | .ok n => .ok { asn, network := n }
  | .err => .error .peeringDb

/-- One `traceroute_channel.send_echo(dst, ttl, id)` call from the trace. -/
def sendEchoCall (env : TraceEnv) (dst : IpAddr) (ttl id : Nat) (st : PollSt) :
    Except TraceErrorK PollSt :=
  if env.sendFail st.sends.length then .error .traceroute
  else .ok { st with sends := st.sends ++ [(dst, ttl, id)] }

/-- One `traceroute_channel.poll()` call from the trace: consumes the next
scripted outcome (an exhausted script is a quiescent channel). -/
def chanPollCall (st : PollSt) : Except TraceErrorK (Option TracerouteResult × PollSt) :=
  match st.packets with
  | [] => .ok (none, { st with channelPolls := st.channelPolls + 1 })
  | p :: rest =>
      let st1 := { st with packets := rest, channelPolls := st.channelPolls + 1 }
      match p with
      | .ok r => .ok (r, st1)
      | .err => .error .traceroute

/-- `Trace::start_next_hop`.  With `max_hops = 0` the guard
`index == self.config.max_hops - 1` underflows the `u8` (a panic in
debug builds); otherwise either all requests are done, or a fresh random
id is drawn, the slot becomes `Pending`, and the probe is sent with
TTL `index + 1`. -/
def startNextHop (env : TraceEnv) (index : Nat) (t : Trace) (st : PollSt) :
    Outcome (Trace × PollSt) :=
  if t.config.maxHops = 0 then .panic
  else if index = t.config.maxHops - 1 then
    .ok ({ t with state := .sentAllRequests env.now env.now }, st)
  else
    let id := env.rng st.rngIdx % 65536
    let st1 := { st with rngIdx := st.rngIdx + 1 }
    let t1 := { t with
      state := .onHop env.now index,
      hopsBuffer := t.hopsBuffer.set index (.pending id),
      usedHops := max t.usedHops (index + 1) }
    match sendEchoCall env t1.dstIp (index + 1) id st1 with
    | .ok st2 => .ok (t1, st2)
    | .error e => .error e

/-- `Trace::retry_ping`: re-send a probe for every still-`Pending` hop at
its original TTL and id. -/
def retryPingAux (env : TraceEnv) (dst : IpAddr) : Nat → List Hop → PollSt →
    Except TraceErrorK PollSt
  | _, [], st => .ok st
  | i, .pending id :: rest, st =>
      match sendEchoCall env dst (i + 1) id st with
      | .ok st1 => retryPingAux env dst (i + 1) rest st1
      | .error e => .error e
  | i, _ :: rest, st => retryPingAux env dst (i + 1) rest st

def retryPing (env : TraceEnv) (t : Trace) (st : PollSt) : Except TraceErrorK PollSt :=
  retryPingAux env t.dstIp 0 t.hops st

/-- The `position` search in `poll_inner`: the first hop whose
`Pending` id matches. -/
def findPendingIdx (hops : List Hop) (id : Nat) : Option Nat :=
  hops.findIdx? fun h => match h with | .pending i => i == id | _ => false

/-- The replacement hop for a matching reply from `ip`: public with a
cache entry — straight to `Done` with the cached ASN; public without —
`FindingAsn` with a fresh WHOIS lookup (recorded); non-public — `Done`
with no network info. -/
def replyHop (env : TraceEnv) (t : Trace) (ip : IpAddr) (st : PollSt) :
    Except TraceErrorK (Hop × PollSt) :=
  if isPublic ip then
    match cacheGet t.asnCache ip with
    | some maybeAsn =>
        match doRdns env ip with
        | .error e => .error e
        | .ok hn =>
            match maybeAsn with
            | some asn =>
                match getNetworkInfo env asn with
                | .error e => .error e
                | .ok ni => .ok (.done ip hn (some ni), st)
            | none => .ok (.done ip hn none, st)
    | none => .ok (.findingAsn ip, { st with lookups := st.lookups ++ [ip] })
  else
    match doRdns env ip with
    | .error e => .error e
    | .ok hn => .ok (.done ip hn none, st)

/-- One `FindingAsn` hop in the finder pass: poll its finder; on `Found`
cache `some asn` and finish the hop with PeeringDB info; on `NotFound`
cache `none` and finish it without. -/
def finderUpdateHop (env : TraceEnv) (i : Nat) (ip : IpAddr) (cache : AsnCache) :
    Except TraceErrorK (Hop × AsnCache × DidUpdate) :=
  match env.finder i with
  | .err => .error .asnLookup
  | .ok .pending => .ok (.findingAsn ip, cache, .no)
  | .ok (.found asn) =>
      let cache1 := cacheInsert cache ip (some asn)
      match doRdns env ip with
      | .error e => .error e
      | .ok hn =>
          match getNetworkInfo env asn with
          | .error e => .error e
          | .ok ni => .ok (.done ip hn (some ni), cache1, .yes)
  | .ok .notFound =>
      let cache1 := cacheInsert cache ip none
      match doRdns env ip with
      | .error e => .error e
      | .ok hn => .ok (.done ip hn none, cache1, .yes)

/-- The loop over `hops_buffer[..used_hops]` at the end of `poll_inner`. -/
def finderPassAux (env : TraceEnv) : Nat → List Hop → AsnCache → PollSt → DidUpdate →
    Except TraceErrorK (List Hop × AsnCache × PollSt × DidUpdate)
  | _, [], cache, st, du => .ok ([], cache, st, du)
  | i, .findingAsn ip :: rest, cache, st, du =>
      match finderUpdateHop env i ip cache with
      | .error e => .error e
      | .ok (h, cache1, du1) =>
          match finderPassAux env (i + 1) rest cache1
              { st with finderPolls := st.finderPolls ++ [i] } (du.or du1) with
          | .error e => .error e
          | .ok (hs, cache2, st2, du2) => .ok (h :: hs, cache2, st2, du2)
  | i, h :: rest, cache, st, du =>
      match finderPassAux env (i + 1) rest cache st (du.or .no) with
      | .error e => .error e
      | .ok (hs, cache1, st1, du1) => .ok (h :: hs, cache1, st1, du1)

def finderPass (env : TraceEnv) (t : Trace) (st : PollSt) (du : DidUpdate) :
    Except TraceErrorK (Trace × PollSt × DidUpdate) :=
  match finderPassAux env 0 t.hops t.asnCache st du with
  | .error e => .error e
  | .ok (hs, cache, st1, du1) =>
      .ok
        ({ t with
            hopsBuffer := hs ++ t.hopsBuffer.drop t.usedHops
            asnCache := cache },
          st1, du1)

/-- `Trace::poll_inner`, with fuel for the recursion.  The recursion fires
only when the current `OnHop` index was just resolved; the index strictly
increases each time, so from the top-level call the fuel of 256 is never
exhausted for `max_hops ≤ 255` (the `u8` range). -/
def pollInner (env : TraceEnv) : Nat → Trace → PollSt →
    Outcome (Trace × PollSt × DidUpdate)
  | 0, t, st => .ok (t, st, .no)
  | fuel + 1, t, st =>
      match chanPollCall st with
      | .error e => .error e
      | .ok (pkt, st1) =>
          let afterPacket : Outcome (Trace × PollSt × DidUpdate) :=
            match pkt with
            | some (.icmpReply ip id) | some (.icmpTimeExceeded ip id) =>
                match findPendingIdx t.hops id with
                | none => .ok (t, st1, .no)
                | some hopIndex =>
                    let isDestination := ip == t.dstIp
                    match replyHop env t ip st1 with
                    | .error e => .error e
                    | .ok (newHop, st2) =>
                        let t1 := { t with hopsBuffer := t.hopsBuffer.set hopIndex newHop }
                        if isDestination then
                          .ok ({ t1 with state := .reachedDestination env.now env.now },
                            st2, .yes)
                        else
                          match t1.state with
                          | .onHop _ index =>
                              if index = hopIndex then
                                match startNextHop env (index + 1) t1 st2 with
                                | .panic => .panic
                                | .error e => .error e
                                | .ok (t2, st3) =>
                                    match pollInner env fuel t2 st3 with
                                    | .panic => .panic
                                    | .error e => .error e
                                    | .ok (t3, st4, _) => .ok (t3, st4, .yes)
                              else .ok (t1, st2, .yes)
                          | _ => .ok (t1, st2, .no)
            | some (.icmpDestinationUnreachable ip) =>
                if ip == t.dstIp then
                  .ok ({ t with state := .terminated .destinationUnreachable }, st1, .yes)
                else .ok (t, st1, .no)
            | none => .ok (t, st1, .no)
          match afterPacket with
          | .panic => .panic
          | .error e => .error e
          | .ok (t1, st2, du) =>
              match finderPass env t1 st2 du with
              | .error e => .error e
              | .ok (t2, st3, du1) => .ok (t2, st3, du1)

/-- `Trace::poll`: the top-level state dispatch of `trace.rs` lines
196-257, producing the updated trace, the side-effect record, and the
`(DidUpdate, Option<TerminationReason>)` pair. -/
def Trace.poll (env : TraceEnv) (packets : List ChanRes) (t : Trace) :
    Outcome (Trace × PollSt × DidUpdate × Option TerminationReason) :=
  let st0 := PollSt.init packets
  let res : Outcome (Trace × PollSt × DidUpdate) :=
    match t.state with
    | .notStarted =>
        match startNextHop env 0 t st0 with
        | .panic => .panic
        | .error e => .error e
        | .ok (t1, st1) => pollInner env 256 t1 st1
    | .onHop startedAt index =>
        if env.now - startedAt > t.config.waitTimePerHop then
          match startNextHop env (index + 1) t st0 with
          | .panic => .panic
          | .error e => .error e
          | .ok (t1, st1) => pollInner env 256 t1 st1
        else pollInner env 256 t st0
    | .sentAllRequests startedAt lastRetry =>
        if env.now - startedAt > t.config.destinationTimeout then
          .ok ({ t with state := .terminated .destinationTimeout }, st0, .yes)
        else if env.now - lastRetry > t.config.retryFrequency then
          match retryPing env t st0 with
          | .error e => .error e
          | .ok st1 =>
              .ok ({ t with state := .sentAllRequests startedAt env.now }, st1, .no)
        else pollInner env 256 t st0
    | .reachedDestination startedAt lastRetry =>
        if env.now - startedAt > t.config.completionTimeout ∧ t.allHopsDone = false then
          .ok ({ t with state := .terminated .completionTimeout }, st0, .yes)
        else if env.now - lastRetry > t.config.retryFrequency then
          match retryPing env t st0 with
          | .error e => .error e
          | .ok st1 =>
              .ok ({ t with state := .reachedDestination startedAt env.now }, st1, .no)
        else if t.allHopsDone then
          .ok ({ t with state := .terminated .done }, st0, .yes)
        else
          -- `self.poll_inner(...)?; DidUpdate::No` — the inner value is dropped
          match pollInner env 256 t st0 with
          | .panic => .panic
          | .error e => .error e
          | .ok (t1, st1, _) => .ok (t1, st1, .no)
    | .terminated _ => .ok (t, st0, .yes)
  match res with
  | .panic => .panic
  | .error e => .error e
  | .ok (t1, st1, du) =>
      match t1.state with
      | .terminated reason => .ok (t1, st1, du, some reason)
      | _ => .ok (t1, st1, du, none)

/-! ## Controller, `ktr_agent/src/controller.rs`

The controller multiplexes `Option<Trace>` slots.  The traces'
`perhaps_use_packet` / `non_packet_poll` methods are not part of the
library sources; their results (of `Trace::poll`'s shape,
`Result<(DidUpdate, Option<TerminationReason>), TraceError>`) are
supplied by the environment, keyed by slot. -/

abbrev PollRes : Type := Except TraceErrorK (DidUpdate × Option TerminationReason)

/-- `SafeTerminationReason`. -/
inductive SafeReason where
  | termination (r : TerminationReason)
  | error (e : TraceErrorK)
deriving DecidableEq

/-- `ControllerResult` (hops owned in both variants here). -/
inductive CtrlEvent where
  | traceUpdate (id : Nat) (hops : List Hop)
  | traceDone (id : Nat) (hops : List Hop) (reason : SafeReason)
deriving DecidableEq

/-- The `Controller` state the claims touch: the sparse trace vector,
`next_id` and `iter_cursor`. -/
structure Controller where
  traces : List (Option Trace)
  nextId : Nat
  iterCursor : Nat
deriving DecidableEq

/-- The hops emitted for slot `i` (`to_hops` of the trace there). -/
def Controller.hopsAt (c : Controller) (i : Nat) : List Hop :=
  match c.traces.getD i none with
  | some tr => tr.hops
  | none => []

inductive HandleRes where
  | noEvent (c : Controller)
  | event (c : Controller) (e : CtrlEvent)
deriving DecidableEq

/-- The `handle_poll_result!` macro: `Ok(No, _)` falls through;
`Ok(Yes, None)` emits `TraceUpdate`; `Ok(Yes, Some(reason))` frees the
slot and sets `next_id = min(iter_cursor, next_id)` (verbatim — the
termination branch uses `iter_cursor`, not the freed id); `Err` frees the
slot and sets `next_id = min(trace_id, next_id)`. -/
def handlePollResult (c : Controller) (traceId : Nat) (res : PollRes) : HandleRes :=
  match res with
  | .ok (.no, _) => .noEvent c
  | .ok (.yes, none) => .event c (.traceUpdate traceId (c.hopsAt traceId))
  | .ok (.yes, some reason) =>
      .event
        { c with
            nextId := min c.iterCursor c.nextId
            traces := c.traces.set traceId none }
        (.traceDone traceId (c.hopsAt traceId) (.termination reason))
  | .error e =>
      .event
        { c with
            nextId := min traceId c.nextId
            traces := c.traces.set traceId none }
        (.traceDone traceId (c.hopsAt traceId) (.error e))

/-- Phase 1 of `try_next`: offer the drained packet to every active slot
in index order; the first event wins. -/
def packetLoopAux (packetRes : Nat → PollRes) :
    Nat → Nat → Controller → Controller × Option CtrlEvent
  | _, 0, c => (c, none)
  | i, rem + 1, c =>
      match c.traces.getD i none with
      | none => packetLoopAux packetRes (i + 1) rem c
      | some _ =>
          match handlePollResult c i (packetRes i) with
          | .noEvent c1 => packetLoopAux packetRes (i + 1) rem c1
          | .event c1 e => (c1, some e)

/-- Phase 2 of `try_next`: round-robin from `iter_cursor`; the cursor
advances after each non-event slot and stays on the slot that produced
an event; a full silent cycle returns `none`. -/
def cursorLoopAux (nonPacketRes : Nat → PollRes) (startCursor : Nat) :
    Nat → Controller → Controller × Option CtrlEvent
  | 0, c => (c, none)
  | fuel + 1, c =>
      let step :=
        match c.traces.getD c.iterCursor none with
        | none => HandleRes.noEvent c
        | some _ => handlePollResult c c.iterCursor (nonPacketRes c.iterCursor)
      match step with
      | .event c1 e => (c1, some e)
      | .noEvent c1 =>
          let c2 := { c1 with iterCursor := (c1.iterCursor + 1) % c1.traces.length }
          if c2.iterCursor = startCursor then (c2, none)
          else cursorLoopAux nonPacketRes startCursor fuel c2

/-- Outcome of the controller's own channel poll. -/
inductive CtrlChanRes where
  | ok (r : Option TracerouteResult)
  | err
deriving DecidableEq

/-- `Controller::try_next`: empty → `None`; drain at most one packet and
offer it to every trace; otherwise advance the round-robin (a channel
error is only logged). -/
def tryNext (chan : CtrlChanRes) (packetRes nonPacketRes : Nat → PollRes)
    (c : Controller) : Controller × Option CtrlEvent :=
  if c.traces.isEmpty then (c, none)
  else
    match chan with
    | .ok (some _) =>
        match packetLoopAux packetRes 0 c.traces.length c with
        | (c1, some e) => (c1, some e)
        | (c1, none) => cursorLoopAux nonPacketRes c1.iterCursor c1.traces.length c1
    | .ok none => cursorLoopAux nonPacketRes c.iterCursor c.traces.length c
    | .err => cursorLoopAux nonPacketRes c.iterCursor c.traces.length c

/-! ### Concrete reply frames (test vectors for the parser) -/

/-- An Ethernet frame: zeroed MACs, the given ethertype, a payload. -/
def ethFrame (ety : Nat) (payload : List Nat) : List Nat :=
  [0, 0, 0, 0, 0, 0, 0, 0, 0, 0, 0, 0, ety / 256, ety % 256] ++ payload

/-- A minimal IPv4 reply header: protocol ICMP, the given source and
destination. -/
def v4ReplyHeader (src dst : List Nat) : List Nat :=
  [0x45, 0, 0, 0, 0, 0, 0, 0, 64, 1, 0, 0] ++ src ++ dst

/-- A minimal IPv6 reply header: the given payload length, next header
ICMPv6, the given source and destination. -/
def v6ReplyHeader (src dst plen : Nat) : List Nat :=
  [0x60, 0, 0, 0, plen / 256, plen % 256, 58, 64]
    ++ bytesOfBits128 src ++ bytesOfBits128 dst

/-- An ICMP Echo Reply carrying the given identifier and sequence. -/
def icmpEchoReplyBytes (id seq : Nat) : List Nat :=
  [0, 0, 0, 0, id / 256, id % 256, seq / 256, seq % 256]

/-- An ICMPv6 Echo Reply carrying the given identifier and sequence. -/
def icmpv6EchoReplyBytes (id seq : Nat) : List Nat :=
  [129, 0, 0, 0, id / 256, id % 256, seq / 256, seq % 256]

/-- An ICMP Time Exceeded quoting the given packet. -/
def timeExceededV4Wrap (quoted : List Nat) : List Nat :=
  [11, 0, 0, 0, 0, 0, 0, 0] ++ quoted

/-- An ICMPv6 Time Exceeded quoting the given packet. -/
def timeExceededV6Wrap (quoted : List Nat) : List Nat :=
  [3, 0, 0, 0, 0, 0, 0, 0] ++ quoted

/-- A sample public IPv6 address (2001:db8::1 is technically documentation
space, used here only as a bit pattern). -/
def sampleV6 : Nat := 0x20010db8000000000000000000000001

/-! ### Sample inputs for concrete runs -/

/-- A benign environment: constant RNG, resolvable reverse DNS misses,
an empty PeeringDB, pending finders, no send failures. -/
def sampleEnv : TraceEnv :=
  { now := 100, rng := fun _ => 7, rdns := fun _ => .notFound,
    pdb := fun _ => .ok none, finder := fun _ => .ok .pending,
    sendFail := fun _ => false }

/-- A configuration with the given `max_hops`. -/
def sampleCfg (mh : Nat) : TraceConfig :=
  { maxHops := mh, waitTimePerHop := 10, retryFrequency := 50,
    destinationTimeout := 100, completionTimeout := 100, asnCacheSize := 100 }

def dstSample : IpAddr := .v4 9 9 9 9

/-- A sample public router IP for cache scenarios. -/
def cacheIp : IpAddr := .v4 8 8 8 8

def doneHopPos : Hop := .done cacheIp none (some { asn := 64500, network := none })

def doneHopNeg : Hop := .done cacheIp none none

/-- A trace waiting in `SentAllRequests` with hop 0 pending id 5 and a
positive ASN-cache entry for `cacheIp`. -/
def c8CachedTrace : Trace :=
  { Trace.new dstSample (sampleCfg 5) with
      state := .sentAllRequests 100 100
      hopsBuffer := (List.replicate 255 Hop.unused).set 0 (.pending 5)
      usedHops := 1
      asnCache := [(cacheIp, some 64500)] }

/-- The same trace with a cached negative entry. -/
def c8NegTrace : Trace := { c8CachedTrace with asnCache := [(cacheIp, none)] }

/-- A trace whose hop 0 has a WHOIS lookup in flight. -/
def c8FindingTrace : Trace :=
  { Trace.new dstSample (sampleCfg 5) with
      state := .sentAllRequests 100 100
      hopsBuffer := (List.replicate 255 Hop.unused).set 0 (.findingAsn cacheIp)
      usedHops := 1 }

/-- `sampleEnv` whose finders complete with `Found(64500)`. -/
def c8FoundEnv : TraceEnv := { sampleEnv with finder := fun _ => .ok (.found 64500) }

/-- The trace after one poll of `Trace::new` under `sampleEnv` with
`max_hops = 4`: hop 0 `Pending 7`. -/
def c5Step1 : Trace :=
  { Trace.new dstSample (sampleCfg 4) with
      state := .onHop 100 0
      hopsBuffer := (List.replicate 255 Hop.unused).set 0 (.pending 7)
      usedHops := 1 }

/-- The trace after a second poll at time 200 (wait time elapsed): hop 1
also `Pending 7`, because the constant RNG repeats the id. -/
def c5Step2 : Trace :=
  { Trace.new dstSample (sampleCfg 4) with
      state := .onHop 200 1
      hopsBuffer := ((List.replicate 255 Hop.unused).set 0 (.pending 7)).set 1 (.pending 7)
      usedHops := 2 }

/-- An idle just-created trace for controller slots. -/
def slotTrace : Trace := Trace.new dstSample (sampleCfg 3)

/-- Two occupied slots, `next_id = 2`, cursor parked at 1. -/
def c6Ctrl : Controller := { traces := [some slotTrace, some slotTrace], nextId := 2, iterCursor := 1 }

/-- Slot 0's packet poll terminates with `Done`; slot 1 reports nothing. -/
def c6PacketDone : Nat → PollRes :=
  fun i => if i = 0 then .ok (.yes, some .done) else .ok (.no, none)

/-- Slot 0's packet poll fails with a trace error. -/
def c6PacketErr : Nat → PollRes :=
  fun i => if i = 0 then .error .traceroute else .ok (.no, none)

/-- One occupied slot, cursor at 0. -/
def c6Ctrl1 : Controller := { traces := [some slotTrace], nextId := 1, iterCursor := 0 }

def c6NoPoll : Nat → PollRes := fun _ => .ok (.no, none)

def c6NonPacketDone : Nat → PollRes := fun _ => .ok (.yes, some .done)

def c6Packet : CtrlChanRes := .ok (some (.icmpReply dstSample 7))

/-- An environment whose generator yields pairwise-distinct ids on the
indexes a poll can draw (`100 + n`, all below `2^16`). -/
def c5FreshEnv : TraceEnv := { sampleEnv with rng := fun n => 100 + n }

/-- The trace after one poll of `Trace::new` under `c5FreshEnv` with
`max_hops = 4`: hop 0 `Pending 100`. -/
def c5FreshStep1 : Trace :=
  { Trace.new dstSample (sampleCfg 4) with
      state := .onHop 100 0
      hopsBuffer := (List.replicate 255 Hop.unused).set 0 (.pending 100)
      usedHops := 1 }

/-! ### Pending-id uniqueness: predicates for the invariant -/

/-- No two distinct slots hold `Pending` hops with the same id. -/
def PDL (hops : List Hop) : Prop :=
  ∀ (i j a b : Nat), i ≠ j → hops[i]? = some (Hop.pending a) →
    hops[j]? = some (Hop.pending b) → a ≠ b

/-- Every `Pending` slot of `hops'` was already `Pending` with the same id
in `hops`. -/
def NoNewPending (hops hops' : List Hop) : Prop :=
  ∀ (i a : Nat), hops'[i]? = some (Hop.pending a) → hops[i]? = some (Hop.pending a)

/-- One `Trace::poll` draws at most 257 fresh ids: at most one from the
top-level state dispatch and at most one per recursion level of
`poll_inner` (whose fuel is 256), so only RNG indexes below 257 are ever
consulted within a poll. -/
def rngDrawBound : Nat := 257

/-- The RNG draws a single poll can make (indexes `k ≤ n < rngDrawBound`)
are pairwise distinct (as `u16`s) and avoid every id currently owned by a
`Pending` hop.  The bound keeps the hypothesis satisfiable (an
unboundedly injective `Nat → u16` cannot exist); 257 distinct `u16`
values fit comfortably in the 65536-value space. -/
def FreshRng (env : TraceEnv) (k : Nat) (hops : List Hop) : Prop :=
  (∀ (m n : Nat), m ≠ n → m < rngDrawBound → n < rngDrawBound →
    env.rng m % 65536 ≠ env.rng n % 65536) ∧
  (∀ (n i a : Nat), k ≤ n → n < rngDrawBound →
    hops[i]? = some (Hop.pending a) → env.rng n % 65536 ≠ a)

/-- The states reachable from `Trace::new` through successful polls whose
freshly drawn `PacketId`s are fresh: pairwise distinct and distinct from
every currently pending id.  (This is the hypothesis under which the
uniqueness invariant holds; the raw claim, quantified over every RNG
outcome, is refuted by `c5_duplicate_pending_ids`.) -/
inductive ReachableFresh : Trace → Prop where
  | base (dst : IpAddr) (cfg : TraceConfig) : ReachableFresh (Trace.new dst cfg)
  | step (env : TraceEnv) (packets : List ChanRes) (t : Trace)
      (out : Trace × PollSt × DidUpdate × Option TerminationReason) :
      ReachableFresh t → FreshRng env 0 t.hopsBuffer →
      Trace.poll env packets t = .ok out → ReachableFresh out.1

/-- Claim C2: for every WHOIS sub-source, a line read failing with
`WouldBlock` or `TimedOut` yields `Pending` and never propagates the
error.  The code refutes this for the normal (IANA/RADB) parser on
`TimedOut`: its guard reads `kind != WouldBlock || kind == TimedOut`,
so a `TimedOut` read returns the error; `WouldBlock` on the normal
parser and both kinds on the Cymru parser behave as the claim says. -/
theorem c2_normal_timedout_propagates :
    (∀ (connect : ConnectFn) (s : NormalAsnServer),
        s.poll connect (.ioErr .timedOut) = .error .timedOut) ∧
    (∀ (connect : ConnectFn) (s : NormalAsnServer),
        s.poll connect (.ioErr .wouldBlock) = .ok (s, .pending)) ∧
    cymruPoll (.ioErr .timedOut) = .ok .pending ∧
    cymruPoll (.ioErr .wouldBlock) = .ok .pending :=
  ⟨fun _ _ => rfl, fun _ _ => rfl, rfl, rfl⟩

/-- Claim C4: `AsnFinder::poll` returns `Found` iff some sub-source slot
yields `Found`, first in the order IANA, RADB, Cymru; `NotFound` iff all
three slots yield `NotFound`; otherwise `Pending`.  And when all three
connections fail, `lookup` still returns `Ok` with the empty resolver,
whose poll returns `NotFound`. -/
theorem c4_finder_aggregation (connect : ConnectFn) (f : AsnFinder)
    (e1 e2 e3 : LineEvent) :
    (∀ a, (f.poll connect e1 e2 e3).2 = .found a ↔
      ((pollNormalSlot connect f.iana e1).2 = .found a ∨
        ((pollNormalSlot connect f.iana e1).2.isFoundB = false ∧
          (pollNormalSlot connect f.radb e2).2 = .found a) ∨
        ((pollNormalSlot connect f.iana e1).2.isFoundB = false ∧
          (pollNormalSlot connect f.radb e2).2.isFoundB = false ∧
          pollCymruSlot f.cymru e3 = .found a))) ∧
    ((f.poll connect e1 e2 e3).2 = .notFound ↔
      ((pollNormalSlot connect f.iana e1).2 = .notFound ∧
        (pollNormalSlot connect f.radb e2).2 = .notFound ∧
        pollCymruSlot f.cymru e3 = .notFound)) ∧
    ((∀ a, (f.poll connect e1 e2 e3).2 ≠ .found a) →
      (f.poll connect e1 e2 e3).2 ≠ .notFound →
      (f.poll connect e1 e2 e3).2 = .pending) ∧
    (∀ k1 k2 k3 : ErrKind,
      AsnFinder.lookup (.error k1) (.error k2) (.error k3) =
        .ok { iana := none, radb := none, cymru := none }) ∧
    (∀ g1 g2 g3 : LineEvent,
      (AsnFinder.poll connect { iana := none, radb := none, cymru := none }
          g1 g2 g3).2 = .notFound) := by
  refine ⟨?_, ?_, ?_, fun _ _ _ => rfl, fun _ _ _ => rfl⟩
  · intro a
    simp only [AsnFinder.poll, firstFound]
    rcases (pollNormalSlot connect f.iana e1).2 with _ | b1 | _ <;>
      rcases (pollNormalSlot connect f.radb e2).2 with _ | b2 | _ <;>
      rcases pollCymruSlot f.cymru e3 with _ | b3 | _ <;>
      simp [AsnResult.isFoundB, AsnResult.isNotFound, firstFound]
  · simp only [AsnFinder.poll, firstFound]
    rcases (pollNormalSlot connect f.iana e1).2 with _ | b1 | _ <;>
      rcases (pollNormalSlot connect f.radb e2).2 with _ | b2 | _ <;>
      rcases pollCymruSlot f.cymru e3 with _ | b3 | _ <;>
      simp [AsnResult.isFoundB, AsnResult.isNotFound, firstFound]
  · intro hnf hnn
    rcases h : (f.poll connect e1 e2 e3).2 with _ | b | _
    · rfl
    · exact absurd h (hnf b)
    · exact absurd h hnn

/-- Claim C3: `TracerouteChannel::poll` is claimed never to panic, with
every malformed or truncated packet yielding `Ok(None)`.  The code
refutes this on the IPv6 side: `Ipv6Packet::new(packet.payload()).unwrap()`
panics on an IPv6-ethertype frame whose payload is shorter than an IPv6
header, while the IPv4 side and the other malformed cases do return
`Ok(None)`. -/
theorem c3_poll_panics_on_short_ipv6 :
    channelPoll (.frame (ethFrame 0x86DD [])) = .panic ∧
    channelPoll (.frame (ethFrame 0x0800 [])) = .ok none ∧
    channelPoll (.frame [1, 2, 3]) = .ok none ∧
    channelPoll (.frame (ethFrame 0x0800
      ([0x45, 0, 0, 0, 0, 0, 0, 0, 64, 6, 0, 0] ++
        [9, 9, 9, 9] ++ [10, 0, 0, 7] ++ [0, 0, 0, 0]))) = .ok none ∧
    channelPoll (.frame (ethFrame 0x0800
      (v4ReplyHeader [9, 9, 9, 9] [10, 0, 0, 7] ++
        [42, 0, 0, 0, 0, 0, 0, 0]))) = .ok none ∧
    channelPoll .errTimedOut = .ok none := by
  decide

/-- Claim C9: the probe built by `send_echo(dst, ttl, id)` carries the TTL,
DF bit, destination and `id` in the claimed fields, and parsing an Echo
Reply or a Time-Exceeded quoting the probe recovers `(dst, id)` — claimed
for both IPv4 and IPv6.  The code refutes the IPv6 Time-Exceeded half:
the quoted IPv6 probe is parsed as an IPv4 header, so the recovered id is
the quoted header's payload-length field (8), not the flow label 0x1234.
The IPv4 round trip and the IPv6 Echo Reply do recover the id. -/
theorem c9_roundtrip_v6_time_exceeded_breaks :
    byteAt (sendEchoV4Bytes 9 9 9 9 3 0x1234 1) 8 = 3 ∧
    byteAt (sendEchoV4Bytes 9 9 9 9 3 0x1234 1) 6 = 0x40 ∧
    ipv4Identification (sendEchoV4Bytes 9 9 9 9 3 0x1234 1) = 0x1234 ∧
    ipv4Source (sendEchoV4Bytes 9 9 9 9 3 0x1234 1) = .v4 0 0 0 0 ∧
    ((sendEchoV4Bytes 9 9 9 9 3 0x1234 1).drop 16).take 4 = [9, 9, 9, 9] ∧
    be16 (byteAt (sendEchoV4Bytes 9 9 9 9 3 0x1234 1) 24)
      (byteAt (sendEchoV4Bytes 9 9 9 9 3 0x1234 1) 25) = 0x1234 ∧
    byteAt (sendEchoV6Bytes sampleV6 3 0x1234 1) 7 = 3 ∧
    be16 (byteAt (sendEchoV6Bytes sampleV6 3 0x1234 1) 2)
      (byteAt (sendEchoV6Bytes sampleV6 3 0x1234 1) 3) = 0x1234 ∧
    channelPoll (.frame (ethFrame 0x0800
        (v4ReplyHeader [9, 9, 9, 9] [10, 0, 0, 7] ++ icmpEchoReplyBytes 0x1234 7)))
      = .ok (some (.icmpReply (.v4 9 9 9 9) 0x1234)) ∧
    channelPoll (.frame (ethFrame 0x0800
        (v4ReplyHeader [192, 0, 2, 1] [10, 0, 0, 7] ++
          timeExceededV4Wrap (sendEchoV4Bytes 9 9 9 9 3 0x1234 1))))
      = .ok (some (.icmpTimeExceeded (.v4 192 0 2 1) 0x1234)) ∧
    channelPoll (.frame (ethFrame 0x86DD
        (v6ReplyHeader sampleV6 0 8 ++ icmpv6EchoReplyBytes 0x1234 7)))
      = .ok (some (.icmpReply (.v6 sampleV6) 0x1234)) ∧
    channelPoll (.frame (ethFrame 0x86DD
        (v6ReplyHeader sampleV6 0 56 ++
          timeExceededV6Wrap (sendEchoV6Bytes sampleV6 3 0x1234 1))))
      = .ok (some (.icmpTimeExceeded (.v6 sampleV6) 8)) ∧
    (8 : Nat) ≠ 0x1234 := by
  decide

/-! ### Panic-freedom for `max_hops ≥ 1` (helper lemmas) -/

theorem startNextHop_ne_panic (env : TraceEnv) (i : Nat) (t : Trace) (st : PollSt)
    (h : t.config.maxHops ≠ 0) : startNextHop env i t st ≠ .panic := by
  intro hc
  unfold startNextHop at hc
  rw [if_neg h] at hc
  split at hc
  · exact Outcome.noConfusion hc
  · dsimp only at hc
    split at hc <;> exact Outcome.noConfusion hc

theorem startNextHop_pres (env : TraceEnv) (i : Nat) (t : Trace) (st : PollSt)
    (t' : Trace) (st' : PollSt) (h : startNextHop env i t st = .ok (t', st')) :
    t'.config = t.config := by
  unfold startNextHop at h
  split at h
  · exact Outcome.noConfusion h
  · split at h
    · simp only [Outcome.ok.injEq, Prod.mk.injEq] at h
      obtain ⟨h1, -⟩ := h
      subst h1; rfl
    · dsimp only at h
      split at h
      · simp only [Outcome.ok.injEq, Prod.mk.injEq] at h
        obtain ⟨h1, -⟩ := h
        subst h1; rfl
      · exact Outcome.noConfusion h

theorem pollInner_ne_panic (env : TraceEnv) :
    ∀ (fuel : Nat) (t : Trace) (st : PollSt), t.config.maxHops ≠ 0 →
      pollInner env fuel t st ≠ .panic := by
  intro fuel
  induction fuel with
  | zero => intro t st _ hc; exact Outcome.noConfusion hc
  | succ n ih =>
      intro t st h hc
      rw [pollInner] at hc
      split at hc
      · exact Outcome.noConfusion hc
      · dsimp only at hc
        split at hc
        case _ heq =>
          try dsimp only at heq
          repeat' split at heq
          all_goals first
            | exact Outcome.noConfusion heq
            | (rename_i hsnh
               exact absurd hsnh (startNextHop_ne_panic env _ _ _ h))
            | (rename_i hsnh apk hrec
               exact absurd hrec (ih _ _ (by
                 rw [startNextHop_pres env _ _ _ _ _ hsnh]; exact h)))
        · exact Outcome.noConfusion hc
        · split at hc <;> exact Outcome.noConfusion hc

/-! ### Pending-id uniqueness: helper lemmas -/

theorem set_pending_eq {l : List Hop} {i : Nat} {h x : Hop}
    (heq : (l.set i h)[i]? = some x) : x = h := by
  by_cases hl : i < l.length
  · rw [List.getElem?_set_eq_of_lt h hl] at heq
    exact (Option.some.inj heq).symm
  · have hnone : (l.set i h)[i]? = none := by
      refine List.getElem?_eq_none ?_
      rw [List.length_set]
      omega
    rw [hnone] at heq
    exact Option.noConfusion heq

theorem PDL_of_NNP {hops hops' : List Hop} (hpd : PDL hops)
    (hn : NoNewPending hops hops') : PDL hops' :=
  fun i j a b hij hi hj => hpd i j a b hij (hn i a hi) (hn j b hj)

theorem NNP_refl (hops : List Hop) : NoNewPending hops hops := fun _ _ h => h

theorem NNP_trans {h1 h2 h3 : List Hop} (a : NoNewPending h1 h2)
    (b : NoNewPending h2 h3) : NoNewPending h1 h3 :=
  fun i x h => a i x (b i x h)

theorem NNP_set_nonpending {hops : List Hop} {k : Nat} {h : Hop}
    (hnp : ∀ a, h ≠ .pending a) : NoNewPending hops (hops.set k h) := by
  intro i a hi
  by_cases hik : k = i
  · subst hik
    exact absurd (set_pending_eq hi).symm (hnp a)
  · rwa [List.getElem?_set_ne hik] at hi

theorem PDL_set_nonpending {hops : List Hop} {k : Nat} {h : Hop}
    (hpd : PDL hops) (hnp : ∀ a, h ≠ .pending a) : PDL (hops.set k h) :=
  PDL_of_NNP hpd (NNP_set_nonpending hnp)

theorem PDL_set_fresh {hops : List Hop} {k id : Nat} (hpd : PDL hops)
    (hfresh : ∀ (i a : Nat), hops[i]? = some (Hop.pending a) → a ≠ id) :
    PDL (hops.set k (Hop.pending id)) := by
  intro i j a b hij hi hj
  by_cases hik : k = i <;> by_cases hjk : k = j
  · exact absurd (hik.symm.trans hjk) hij
  · have ha : a = id := by
      subst hik
      exact Hop.pending.inj (set_pending_eq hi)
    have hj' : hops[j]? = some (Hop.pending b) := by
      rwa [List.getElem?_set_ne hjk] at hj
    subst ha
    exact fun hab => hfresh j b hj' (hab.symm)
  · have hb : b = id := by
      subst hjk
      exact Hop.pending.inj (set_pending_eq hj)
    have hi' : hops[i]? = some (Hop.pending a) := by
      rwa [List.getElem?_set_ne hik] at hi
    subst hb
    exact hfresh i a hi'
  · have hi' : hops[i]? = some (Hop.pending a) := by
      rwa [List.getElem?_set_ne hik] at hi
    have hj' : hops[j]? = some (Hop.pending b) := by
      rwa [List.getElem?_set_ne hjk] at hj
    exact hpd i j a b hij hi' hj'

theorem FreshRng_mono {env : TraceEnv} {k k' : Nat} {hops : List Hop}
    (hkk : k ≤ k') (h : FreshRng env k hops) : FreshRng env k' hops :=
  ⟨h.1, fun n i a hn hb hi => h.2 n i a (le_trans hkk hn) hb hi⟩

theorem FreshRng_of_NNP {env : TraceEnv} {k : Nat} {hops hops' : List Hop}
    (h : FreshRng env k hops) (hn : NoNewPending hops hops') :
    FreshRng env k hops' :=
  ⟨h.1, fun n i a hkn hb hi => h.2 n i a hkn hb (hn i a hi)⟩

theorem FreshRng_set_fresh {env : TraceEnv} {k : Nat} {hops : List Hop} {i : Nat}
    (h : FreshRng env k hops) (hk : k < rngDrawBound) :
    FreshRng env (k + 1) (hops.set i (Hop.pending (env.rng k % 65536))) := by
  refine ⟨h.1, ?_⟩
  intro n j a hkn hb hj
  by_cases hij : i = j
  · subst hij
    have h1 := Hop.pending.inj (set_pending_eq hj)
    subst h1
    exact h.1 n k (by omega) hb hk
  · exact h.2 n j a (by omega) hb (by rwa [List.getElem?_set_ne hij] at hj)

theorem FreshRng_pending_ne {env : TraceEnv} {k : Nat} {hops : List Hop}
    (h : FreshRng env k hops) (hk : k < rngDrawBound) :
    ∀ (i a : Nat), hops[i]? = some (Hop.pending a) → a ≠ env.rng k % 65536 :=
  fun i a hi hak => h.2 k i a (Nat.le_refl k) hk hi hak.symm

theorem sendEchoCall_rngIdx {env : TraceEnv} {dst : IpAddr} {ttl id : Nat}
    {st st' : PollSt} (h : sendEchoCall env dst ttl id st = .ok st') :
    st'.rngIdx = st.rngIdx := by
  unfold sendEchoCall at h
  split at h
  · exact Except.noConfusion h
  · rw [← Except.ok.inj h]

theorem chanPollCall_rngIdx {st : PollSt} {pkt : Option TracerouteResult}
    {st' : PollSt} (h : chanPollCall st = .ok (pkt, st')) :
    st'.rngIdx = st.rngIdx := by
  unfold chanPollCall at h
  split at h
  · simp only [Except.ok.injEq, Prod.mk.injEq] at h
    obtain ⟨-, h2⟩ := h
    rw [← h2]
  · dsimp only at h
    split at h
    · simp only [Except.ok.injEq, Prod.mk.injEq] at h
      obtain ⟨-, h2⟩ := h
      rw [← h2]
    · exact Except.noConfusion h

theorem replyHop_shape {env : TraceEnv} {t : Trace} {ip : IpAddr} {st : PollSt}
    {h : Hop} {st' : PollSt} (heq : replyHop env t ip st = .ok (h, st')) :
    (∀ (a : Nat), h ≠ Hop.pending a) ∧ st'.rngIdx = st.rngIdx := by
  unfold replyHop at heq
  repeat' split at heq
  all_goals first
    | exact Except.noConfusion heq
    | (simp only [Except.ok.injEq, Prod.mk.injEq] at heq
       obtain ⟨h1, h2⟩ := heq
       subst h1; subst h2
       exact ⟨fun a ha => Hop.noConfusion ha, rfl⟩)

theorem finderUpdateHop_shape {env : TraceEnv} {i : Nat} {ip : IpAddr}
    {cache : AsnCache} {h : Hop} {cache' : AsnCache} {du : DidUpdate}
    (heq : finderUpdateHop env i ip cache = .ok (h, cache', du)) :
    ∀ (a : Nat), h ≠ Hop.pending a := by
  unfold finderUpdateHop at heq
  repeat' split at heq
  all_goals first
    | exact Except.noConfusion heq
    | (simp only [Except.ok.injEq, Prod.mk.injEq] at heq
       obtain ⟨h1, -⟩ := heq
       subst h1
       exact fun a ha => Hop.noConfusion ha)

theorem NNP_cons {x y : Hop} {xs ys : List Hop}
    (h0 : ∀ (a : Nat), y = Hop.pending a → x = Hop.pending a)
    (h : NoNewPending xs ys) : NoNewPending (x :: xs) (y :: ys) := by
  intro i a hi
  match i with
  | 0 =>
      rw [List.getElem?_cons_zero] at hi ⊢
      rw [h0 a (Option.some.inj hi)]
  | i + 1 =>
      rw [List.getElem?_cons_succ] at hi ⊢
      exact h i a hi

theorem finderPassAux_shape (env : TraceEnv) :
    ∀ (hops : List Hop) (i : Nat) (cache : AsnCache) (st : PollSt) (du : DidUpdate)
      (hs : List Hop) (cache' : AsnCache) (st' : PollSt) (du' : DidUpdate),
      finderPassAux env i hops cache st du = .ok (hs, cache', st', du') →
      NoNewPending hops hs ∧ hs.length = hops.length ∧ st'.rngIdx = st.rngIdx := by
  intro hops
  induction hops with
  | nil =>
      intro i cache st du hs cache' st' du' h
      simp only [finderPassAux, Except.ok.injEq, Prod.mk.injEq] at h
      obtain ⟨h1, -, h3, -⟩ := h
      subst h1; subst h3
      exact ⟨NNP_refl [], rfl, rfl⟩
  | cons x rest ih =>
      intro i cache st du hs cache' st' du' h
      cases x with
      | findingAsn ip =>
          rw [finderPassAux] at h
          split at h
          · exact Except.noConfusion h
          case _ h' cache1 du1 hupd =>
            split at h
            · exact Except.noConfusion h
            case _ hs1 cache2 st2 du2 hrec =>
              simp only [Except.ok.injEq, Prod.mk.injEq] at h
              obtain ⟨h1, -, h3, -⟩ := h
              subst h1; subst h3
              obtain ⟨hnnp, hlen, hrng⟩ := ih _ _ _ _ _ _ _ _ hrec
              refine ⟨NNP_cons ?_ hnnp, ?_, hrng⟩
              · intro a ha
                exact absurd ha (finderUpdateHop_shape hupd a)
              · simp [hlen]
      | unused =>
          rw [finderPassAux] at h
          all_goals try exact fun ip hcontra => Hop.noConfusion hcontra
          split at h
          · exact Except.noConfusion h
          case _ hs1 cache1 st1 du1 hrec =>
            simp only [Except.ok.injEq, Prod.mk.injEq] at h
            obtain ⟨h1, -, h3, -⟩ := h
            subst h1; subst h3
            obtain ⟨hnnp, hlen, hrng⟩ := ih _ _ _ _ _ _ _ _ hrec
            exact ⟨NNP_cons (fun a ha => ha) hnnp, by simp [hlen], hrng⟩
      | pending pid =>
          rw [finderPassAux] at h
          all_goals try exact fun ip hcontra => Hop.noConfusion hcontra
          split at h
          · exact Except.noConfusion h
          case _ hs1 cache1 st1 du1 hrec =>
            simp only [Except.ok.injEq, Prod.mk.injEq] at h
            obtain ⟨h1, -, h3, -⟩ := h
            subst h1; subst h3
            obtain ⟨hnnp, hlen, hrng⟩ := ih _ _ _ _ _ _ _ _ hrec
            exact ⟨NNP_cons (fun a ha => ha) hnnp, by simp [hlen], hrng⟩
      | done dip dh dn =>
          rw [finderPassAux] at h
          all_goals try exact fun ip hcontra => Hop.noConfusion hcontra
          split at h
          · exact Except.noConfusion h
          case _ hs1 cache1 st1 du1 hrec =>
            simp only [Except.ok.injEq, Prod.mk.injEq] at h
            obtain ⟨h1, -, h3, -⟩ := h
            subst h1; subst h3
            obtain ⟨hnnp, hlen, hrng⟩ := ih _ _ _ _ _ _ _ _ hrec
            exact ⟨NNP_cons (fun a ha => ha) hnnp, by simp [hlen], hrng⟩

theorem finderPass_shape {env : TraceEnv} {t : Trace} {st : PollSt} {du : DidUpdate}
    {t' : Trace} {st' : PollSt} {du' : DidUpdate}
    (h : finderPass env t st du = .ok (t', st', du')) :
    NoNewPending t.hopsBuffer t'.hopsBuffer ∧ st'.rngIdx = st.rngIdx := by
  unfold finderPass at h
  split at h
  · exact Except.noConfusion h
  case _ hs cache1 st1 du1 heq =>
    simp only [Except.ok.injEq, Prod.mk.injEq] at h
    obtain ⟨h1, h2, -⟩ := h
    obtain ⟨hnnp, hlen, hrng⟩ := finderPassAux_shape env _ _ _ _ _ _ _ _ _ heq
    constructor
    · rw [← h1]
      intro i a hi
      dsimp only at hi
      have hlen2 : hs.length = min t.usedHops t.hopsBuffer.length := by
        rw [hlen]; unfold Trace.hops; exact List.length_take _ _
      by_cases hilt : i < hs.length
      · rw [List.getElem?_append, if_pos hilt] at hi
        have h4 := hnnp i a hi
        unfold Trace.hops at h4
        rw [List.getElem?_take, if_pos (by omega)] at h4
        exact h4
      · rw [List.getElem?_append, if_neg hilt] at hi
        rw [List.getElem?_drop] at hi
        by_cases hul : t.usedHops ≤ t.hopsBuffer.length
        · have : t.usedHops + (i - hs.length) = i := by omega
          rwa [this] at hi
        · have hnone : t.hopsBuffer[t.usedHops + (i - hs.length)]? = none :=
            List.getElem?_eq_none (by omega)
          rw [hnone] at hi
          exact Option.noConfusion hi
    · rw [← h2]; exact hrng

theorem startNextHop_shape {env : TraceEnv} {i : Nat} {t : Trace} {st : PollSt}
    {t' : Trace} {st' : PollSt} (h : startNextHop env i t st = .ok (t', st'))
    (hpd : PDL t.hopsBuffer) (hfr : FreshRng env st.rngIdx t.hopsBuffer)
    (hbnd : st.rngIdx < rngDrawBound) :
    PDL t'.hopsBuffer ∧ FreshRng env st'.rngIdx t'.hopsBuffer := by
  unfold startNextHop at h
  split at h
  · exact Outcome.noConfusion h
  · split at h
    · simp only [Outcome.ok.injEq, Prod.mk.injEq] at h
      obtain ⟨h1, h2⟩ := h
      subst h1; subst h2
      exact ⟨hpd, hfr⟩
    · dsimp only at h
      split at h
      case _ st2 hsend =>
        simp only [Outcome.ok.injEq, Prod.mk.injEq] at h
        obtain ⟨h1, h2⟩ := h
        subst h1; subst h2
        have hr2 : st2.rngIdx = st.rngIdx + 1 := by
          rw [sendEchoCall_rngIdx hsend]
        constructor
        · exact PDL_set_fresh hpd (FreshRng_pending_ne hfr hbnd)
        · rw [hr2]
          exact FreshRng_set_fresh hfr hbnd
      · exact Outcome.noConfusion h

/-- `start_next_hop` advances the RNG cursor by at most one. -/
theorem startNextHop_rng_le {env : TraceEnv} {i : Nat} {t : Trace} {st : PollSt}
    {t' : Trace} {st' : PollSt} (h : startNextHop env i t st = .ok (t', st')) :
    st'.rngIdx ≤ st.rngIdx + 1 := by
  unfold startNextHop at h
  split at h
  · exact Outcome.noConfusion h
  · split at h
    · simp only [Outcome.ok.injEq, Prod.mk.injEq] at h
      obtain ⟨-, h2⟩ := h
      rw [← h2]
      omega
    · dsimp only at h
      split at h
      case _ st2 hsend =>
        simp only [Outcome.ok.injEq, Prod.mk.injEq] at h
        obtain ⟨-, h2⟩ := h
        rw [← h2, sendEchoCall_rngIdx hsend]
      · exact Outcome.noConfusion h

theorem pollInner_PDL (env : TraceEnv) :
    ∀ (fuel : Nat) (t : Trace) (st : PollSt) (out : Trace × PollSt × DidUpdate),
      pollInner env fuel t st = .ok out →
      PDL t.hopsBuffer → FreshRng env st.rngIdx t.hopsBuffer →
      st.rngIdx + fuel ≤ rngDrawBound →
      PDL out.1.hopsBuffer := by
  intro fuel
  induction fuel with
  | zero =>
      intro t st out h hpd _ _
      simp only [pollInner, Outcome.ok.injEq] at h
      rw [← h]
      exact hpd
  | succ n ih =>
      intro t st out hok hpd hfr hbnd
      rw [pollInner] at hok
      split at hok
      · exact Outcome.noConfusion hok
      · rename_i pkt st1 hchan
        dsimp only at hok
        have hfr1 : FreshRng env st1.rngIdx t.hopsBuffer := by
          rw [chanPollCall_rngIdx hchan]; exact hfr
        split at hok
        · exact Outcome.noConfusion hok
        · exact Outcome.noConfusion hok
        · rename_i t1 st2 du heqM
          have hPD1 : PDL t1.hopsBuffer := by
            clear hok
            split at heqM
            · -- IcmpReply
              rename_i ip id
              split at heqM
              · simp only [Outcome.ok.injEq, Prod.mk.injEq] at heqM
                obtain ⟨h1, -⟩ := heqM
                subst h1; exact hpd
              · rename_i hopIndex hfind
                split at heqM
                · exact Outcome.noConfusion heqM
                · rename_i newHop st2' hrh
                  have hnp := (replyHop_shape hrh).1
                  have hrng2 : st2'.rngIdx = st1.rngIdx := (replyHop_shape hrh).2
                  split at heqM
                  · simp only [Outcome.ok.injEq, Prod.mk.injEq] at heqM
                    obtain ⟨h1, -⟩ := heqM
                    subst h1
                    exact PDL_set_nonpending hpd hnp
                  · split at heqM
                    · rename_i w index hstate
                      split at heqM
                      · split at heqM
                        · exact Outcome.noConfusion heqM
                        · exact Outcome.noConfusion heqM
                        · rename_i t2' st3' hsnh
                          split at heqM
                          · exact Outcome.noConfusion heqM
                          · exact Outcome.noConfusion heqM
                          · rename_i t3 st4 du4 hrec
                            simp only [Outcome.ok.injEq, Prod.mk.injEq] at heqM
                            obtain ⟨h1, -⟩ := heqM
                            subst h1
                            have hstep := startNextHop_shape hsnh
                              (PDL_set_nonpending hpd hnp)
                              (by
                                rw [hrng2]
                                exact FreshRng_of_NNP hfr1 (NNP_set_nonpending hnp))
                              (by
                                have hc := chanPollCall_rngIdx hchan
                                omega)
                            refine ih _ _ _ hrec hstep.1 hstep.2 ?_
                            have hle := startNextHop_rng_le hsnh
                            have hc := chanPollCall_rngIdx hchan
                            omega
                      · simp only [Outcome.ok.injEq, Prod.mk.injEq] at heqM
                        obtain ⟨h1, -⟩ := heqM
                        subst h1
                        exact PDL_set_nonpending hpd hnp
                    all_goals
                      (simp only [Outcome.ok.injEq, Prod.mk.injEq] at heqM
                       obtain ⟨h1, -⟩ := heqM
                       subst h1
                       exact PDL_set_nonpending hpd hnp)
            · -- IcmpTimeExceeded
              rename_i ip id
              split at heqM
              · simp only [Outcome.ok.injEq, Prod.mk.injEq] at heqM
                obtain ⟨h1, -⟩ := heqM
                subst h1; exact hpd
              · rename_i hopIndex hfind
                split at heqM
                · exact Outcome.noConfusion heqM
                · rename_i newHop st2' hrh
                  have hnp := (replyHop_shape hrh).1
                  have hrng2 : st2'.rngIdx = st1.rngIdx := (replyHop_shape hrh).2
                  split at heqM
                  · simp only [Outcome.ok.injEq, Prod.mk.injEq] at heqM
                    obtain ⟨h1, -⟩ := heqM
                    subst h1
                    exact PDL_set_nonpending hpd hnp
                  · split at heqM
                    · rename_i w index hstate
                      split at heqM
                      · split at heqM
                        · exact Outcome.noConfusion heqM
                        · exact Outcome.noConfusion heqM
                        · rename_i t2' st3' hsnh
                          split at heqM
                          · exact Outcome.noConfusion heqM
                          · exact Outcome.noConfusion heqM
                          · rename_i t3 st4 du4 hrec
                            simp only [Outcome.ok.injEq, Prod.mk.injEq] at heqM
                            obtain ⟨h1, -⟩ := heqM
                            subst h1
                            have hstep := startNextHop_shape hsnh
                              (PDL_set_nonpending hpd hnp)
                              (by
                                rw [hrng2]
                                exact FreshRng_of_NNP hfr1 (NNP_set_nonpending hnp))
                              (by
                                have hc := chanPollCall_rngIdx hchan
                                omega)
                            refine ih _ _ _ hrec hstep.1 hstep.2 ?_
                            have hle := startNextHop_rng_le hsnh
                            have hc := chanPollCall_rngIdx hchan
                            omega
                      · simp only [Outcome.ok.injEq, Prod.mk.injEq] at heqM
                        obtain ⟨h1, -⟩ := heqM
                        subst h1
                        exact PDL_set_nonpending hpd hnp
                    all_goals
                      (simp only [Outcome.ok.injEq, Prod.mk.injEq] at heqM
                       obtain ⟨h1, -⟩ := heqM
                       subst h1
                       exact PDL_set_nonpending hpd hnp)
            · -- IcmpDestinationUnreachable
              rename_i ip
              split at heqM
              all_goals
                (simp only [Outcome.ok.injEq, Prod.mk.injEq] at heqM
                 obtain ⟨h1, -⟩ := heqM
                 subst h1
                 exact hpd)
            · -- no packet
              simp only [Outcome.ok.injEq, Prod.mk.injEq] at heqM
              obtain ⟨h1, -⟩ := heqM
              subst h1; exact hpd
          split at hok
          · exact Outcome.noConfusion hok
          · rename_i t2 st3 du1 hfp
            simp only [Outcome.ok.injEq] at hok
            rw [← hok]
            exact PDL_of_NNP hPD1 (finderPass_shape hfp).1

theorem poll_PDL {env : TraceEnv} {packets : List ChanRes} {t : Trace}
    {out : Trace × PollSt × DidUpdate × Option TerminationReason}
    (h : Trace.poll env packets t = .ok out)
    (hpd : PDL t.hopsBuffer) (hfr : FreshRng env 0 t.hopsBuffer) :
    PDL out.1.hopsBuffer := by
  rw [Trace.poll] at h
  split at h
  · exact Outcome.noConfusion h
  · exact Outcome.noConfusion h
  · rename_i t1 st1 du heqR
    have hPD1 : PDL t1.hopsBuffer := by
      clear h
      split at heqR
      · -- NotStarted
        split at heqR
        · exact Outcome.noConfusion heqR
        · exact Outcome.noConfusion heqR
        · rename_i t1' st1' hsnh
          have hstep := startNextHop_shape hsnh hpd hfr (by show 0 < rngDrawBound; decide)
          refine pollInner_PDL env 256 _ _ _ heqR hstep.1 hstep.2 ?_
          have hle := startNextHop_rng_le hsnh
          have h0 : (PollSt.init packets).rngIdx = 0 := rfl
          have hB : rngDrawBound = 257 := rfl
          omega
      · -- OnHop
        rename_i startedAt index hstate
        split at heqR
        · split at heqR
          · exact Outcome.noConfusion heqR
          · exact Outcome.noConfusion heqR
          · rename_i t1' st1' hsnh
            have hstep := startNextHop_shape hsnh hpd hfr (by show 0 < rngDrawBound; decide)
            refine pollInner_PDL env 256 _ _ _ heqR hstep.1 hstep.2 ?_
            have hle := startNextHop_rng_le hsnh
            have h0 : (PollSt.init packets).rngIdx = 0 := rfl
            have hB : rngDrawBound = 257 := rfl
            omega
        · exact pollInner_PDL env 256 _ _ _ heqR hpd hfr (by show 0 + 256 ≤ rngDrawBound; decide)
      · -- SentAllRequests
        rename_i startedAt lastRetry hstate
        split at heqR
        · simp only [Outcome.ok.injEq, Prod.mk.injEq] at heqR
          obtain ⟨h1, -⟩ := heqR
          subst h1; exact hpd
        · split at heqR
          · split at heqR
            · exact Outcome.noConfusion heqR
            · rename_i st1' hretry
              simp only [Outcome.ok.injEq, Prod.mk.injEq] at heqR
              obtain ⟨h1, -⟩ := heqR
              subst h1; exact hpd
          · exact pollInner_PDL env 256 _ _ _ heqR hpd hfr (by show 0 + 256 ≤ rngDrawBound; decide)
      · -- ReachedDestination
        rename_i startedAt lastRetry hstate
        split at heqR
        · simp only [Outcome.ok.injEq, Prod.mk.injEq] at heqR
          obtain ⟨h1, -⟩ := heqR
          subst h1; exact hpd
        · split at heqR
          · split at heqR
            · exact Outcome.noConfusion heqR
            · rename_i st1' hretry
              simp only [Outcome.ok.injEq, Prod.mk.injEq] at heqR
              obtain ⟨h1, -⟩ := heqR
              subst h1; exact hpd
          · split at heqR
            · simp only [Outcome.ok.injEq, Prod.mk.injEq] at heqR
              obtain ⟨h1, -⟩ := heqR
              subst h1; exact hpd
            · split at heqR
              · exact Outcome.noConfusion heqR
              · exact Outcome.noConfusion heqR
              · rename_i t1' st1' du' hrec
                simp only [Outcome.ok.injEq, Prod.mk.injEq] at heqR
                obtain ⟨h1, -⟩ := heqR
                subst h1
                exact pollInner_PDL env 256 _ _ _ hrec hpd hfr (by show 0 + 256 ≤ rngDrawBound; decide)
      · -- Terminated
        simp only [Outcome.ok.injEq, Prod.mk.injEq] at heqR
        obtain ⟨h1, -⟩ := heqR
        subst h1; exact hpd
    split at h
    · rename_i reason hterm
      simp only [Outcome.ok.injEq] at h
      rw [← h]
      exact hPD1
    · simp only [Outcome.ok.injEq] at h
      rw [← h]
      exact hPD1


/-- Claim C1: claimed — before entering `SentAllRequests` a probe is sent
for every hop index `0..max_hops-1`, so `max_hops = 1` sends one probe
and an answering destination yields `Done`.  The code refutes this:
`start_next_hop(index)` transitions to `SentAllRequests` as soon as
`index == max_hops - 1` *without* probing that slot, so slot
`max_hops - 1` is never probed.  With `max_hops = 1` no probe is ever
sent, a destination reply matches no `Pending` hop, and the trace can
only terminate with `DestinationTimeout`; with `max_hops = 2` exactly one
probe (slot 0, TTL 1) is sent. -/
theorem c1_last_hop_never_probed :
    Trace.poll sampleEnv [] (Trace.new dstSample (sampleCfg 1)) =
      .ok ({ Trace.new dstSample (sampleCfg 1) with state := .sentAllRequests 100 100 },
        { packets := [], rngIdx := 0, sends := [], lookups := [], finderPolls := [],
          channelPolls := 1 }, .no, none) ∧
    Trace.poll sampleEnv [.ok (some (.icmpReply dstSample 7))]
        ({ Trace.new dstSample (sampleCfg 1) with state := .sentAllRequests 100 100 }) =
      .ok ({ Trace.new dstSample (sampleCfg 1) with state := .sentAllRequests 100 100 },
        { packets := [], rngIdx := 0, sends := [], lookups := [], finderPolls := [],
          channelPolls := 1 }, .no, none) ∧
    Trace.poll { sampleEnv with now := 201 } []
        ({ Trace.new dstSample (sampleCfg 1) with state := .sentAllRequests 100 100 }) =
      .ok ({ Trace.new dstSample (sampleCfg 1) with state := .terminated .destinationTimeout },
        PollSt.init [], .yes, some .destinationTimeout) ∧
    Trace.poll sampleEnv [] (Trace.new dstSample (sampleCfg 2)) =
      .ok ({ Trace.new dstSample (sampleCfg 2) with
              state := .onHop 100 0
              hopsBuffer := (List.replicate 255 Hop.unused).set 0 (.pending 7)
              usedHops := 1 },
        { packets := [], rngIdx := 1, sends := [(dstSample, 1, 7)], lookups := [],
          finderPolls := [], channelPolls := 1 }, .no, none) :=
  ⟨by decide, by decide, by decide, by decide⟩

/-- Claim C7: once the state is `Terminated(reason)`, every poll returns
`(Yes, Some(reason))` and performs no work: the trace (hops buffer,
used count, cache, state) is returned unchanged and the side-effect
record stays empty — no send, no channel poll, no finder poll, no
lookup. -/
theorem c7_terminated_poll_is_inert (env : TraceEnv) (packets : List ChanRes)
    (t : Trace) (r : TerminationReason) (h : t.state = .terminated r) :
    Trace.poll env packets t = .ok (t, PollSt.init packets, .yes, some r) := by
  simp [Trace.poll, h]

/-- Witness for `c7_terminated_poll_is_inert` at a concrete trace. -/
theorem c7_terminated_poll_is_inert_witness :
    Trace.poll sampleEnv [.ok (some (.icmpReply dstSample 7))]
        ({ Trace.new dstSample (sampleCfg 3) with state := .terminated .done }) =
      .ok ({ Trace.new dstSample (sampleCfg 3) with state := .terminated .done },
        PollSt.init [.ok (some (.icmpReply dstSample 7))], .yes, some .done) :=
  c7_terminated_poll_is_inert sampleEnv [.ok (some (.icmpReply dstSample 7))] _ .done rfl

/-- Claim C10: with `max_hops = 0` the first poll (state `NotStarted`)
reaches `start_next_hop`, whose guard evaluates `max_hops - 1` on the
`u8` and underflows — a debug-build panic; with `max_hops ≥ 1` no poll
ever panics, so the embedding is total exactly when `max_hops ≥ 1`. -/
theorem c10_poll_total_iff_max_hops_pos :
    (∀ (env : TraceEnv) (packets : List ChanRes) (t : Trace),
        t.state = .notStarted → t.config.maxHops = 0 →
        Trace.poll env packets t = .panic) ∧
    (∀ (env : TraceEnv) (packets : List ChanRes) (t : Trace),
        1 ≤ t.config.maxHops → Trace.poll env packets t ≠ .panic) := by
  constructor
  · intro env packets t hs hm
    simp [Trace.poll, hs, startNextHop, hm]
  · intro env packets t hm hc
    have h0 : t.config.maxHops ≠ 0 := by omega
    rw [Trace.poll] at hc
    split at hc
    case _ heq =>
      repeat' split at heq
      all_goals first
        | exact Outcome.noConfusion heq
        | exact absurd heq (pollInner_ne_panic env _ _ _ h0)
        | (rename_i hrec
           exact absurd hrec (pollInner_ne_panic env _ _ _ h0))
        | (rename_i hsnh
           exact absurd hsnh (startNextHop_ne_panic env _ _ _ h0))
        | (rename_i hsnh
           exact absurd heq (pollInner_ne_panic env _ _ _ (by
             rw [startNextHop_pres env _ _ _ _ _ hsnh]; exact h0)))
    · exact Outcome.noConfusion hc
    · split at hc <;> exact Outcome.noConfusion hc

/-- Witness for `c10_poll_total_iff_max_hops_pos` at concrete traces. -/
theorem c10_poll_total_iff_max_hops_pos_witness :
    Trace.poll sampleEnv [] (Trace.new dstSample (sampleCfg 0)) = .panic ∧
    Trace.poll sampleEnv [] (Trace.new dstSample (sampleCfg 1)) ≠ .panic :=
  ⟨c10_poll_total_iff_max_hops_pos.1 sampleEnv [] _ rfl rfl,
    c10_poll_total_iff_max_hops_pos.2 sampleEnv [] _ (by decide)⟩

/-- Claim C8: a matching reply from a public source with an ASN-cache
entry sends the hop straight to `Done` — `network_info` is `none` for a
cached negative and carries the cached ASN (plus the PeeringDB record)
for a cached positive — with the side-effect state unchanged, so no new
WHOIS lookup is created; and a completing ASN finder inserts `some asn`
(on `Found`) or `none` (on `NotFound`) into the cache.  The closed
conjuncts run whole polls on concrete traces: the cached cases record no
lookup (`lookups = []`), the finder case ends with the result cached. -/
theorem c8_asn_cache_behaviour :
    (∀ (env : TraceEnv) (t : Trace) (ip : IpAddr) (st : PollSt) (hn : Option String),
      isPublic ip = true → cacheGet t.asnCache ip = some none →
      doRdns env ip = .ok hn →
      replyHop env t ip st = .ok (.done ip hn none, st)) ∧
    (∀ (env : TraceEnv) (t : Trace) (ip : IpAddr) (st : PollSt) (hn : Option String)
        (asn : Nat) (ni : NetworkInfo),
      isPublic ip = true → cacheGet t.asnCache ip = some (some asn) →
      doRdns env ip = .ok hn → getNetworkInfo env asn = .ok ni →
      replyHop env t ip st = .ok (.done ip hn (some ni), st)) ∧
    (∀ (env : TraceEnv) (i : Nat) (ip : IpAddr) (cache : AsnCache)
        (hn : Option String) (asn : Nat) (ni : NetworkInfo),
      env.finder i = .ok (.found asn) → doRdns env ip = .ok hn →
      getNetworkInfo env asn = .ok ni →
      finderUpdateHop env i ip cache =
        .ok (.done ip hn (some ni), cacheInsert cache ip (some asn), .yes)) ∧
    (∀ (env : TraceEnv) (i : Nat) (ip : IpAddr) (cache : AsnCache) (hn : Option String),
      env.finder i = .ok .notFound → doRdns env ip = .ok hn →
      finderUpdateHop env i ip cache =
        .ok (.done ip hn none, cacheInsert cache ip none, .yes)) ∧
    (∀ (cache : AsnCache) (ip : IpAddr) (v : Option Nat),
      cacheGet (cacheInsert cache ip v) ip = some v) ∧
    Trace.poll sampleEnv [.ok (some (.icmpTimeExceeded cacheIp 5))] c8CachedTrace =
      .ok ({ c8CachedTrace with
              hopsBuffer := (List.replicate 255 Hop.unused).set 0 doneHopPos },
        { packets := [], rngIdx := 0, sends := [], lookups := [], finderPolls := [],
          channelPolls := 1 }, .no, none) ∧
    Trace.poll sampleEnv [.ok (some (.icmpTimeExceeded cacheIp 5))] c8NegTrace =
      .ok ({ c8NegTrace with
              hopsBuffer := (List.replicate 255 Hop.unused).set 0 doneHopNeg },
        { packets := [], rngIdx := 0, sends := [], lookups := [], finderPolls := [],
          channelPolls := 1 }, .no, none) ∧
    Trace.poll c8FoundEnv [] c8FindingTrace =
      .ok ({ c8FindingTrace with
              hopsBuffer := (List.replicate 255 Hop.unused).set 0 doneHopPos
              asnCache := [(cacheIp, some 64500)] },
        { packets := [], rngIdx := 0, sends := [], lookups := [], finderPolls := [0],
          channelPolls := 1 }, .yes, none) := by
  refine ⟨?_, ?_, ?_, ?_, ?_, by decide, by decide, by decide⟩
  · intro env t ip st hn hpub hcache hrdns
    simp [replyHop, hpub, hcache, hrdns]
  · intro env t ip st hn asn ni hpub hcache hrdns hpdb
    simp [replyHop, hpub, hcache, hrdns, hpdb]
  · intro env i ip cache hn asn ni hf hrdns hpdb
    simp [finderUpdateHop, hf, hrdns, hpdb]
  · intro env i ip cache hn hf hrdns
    simp [finderUpdateHop, hf, hrdns]
  · intro cache ip v
    simp [cacheGet, cacheInsert]

/-- Witness for `c8_asn_cache_behaviour` at concrete inputs. -/
theorem c8_asn_cache_behaviour_witness :
    replyHop sampleEnv c8NegTrace cacheIp (PollSt.init []) =
      .ok (.done cacheIp none none, PollSt.init []) ∧
    replyHop sampleEnv c8CachedTrace cacheIp (PollSt.init []) =
      .ok (.done cacheIp none (some { asn := 64500, network := none }), PollSt.init []) ∧
    finderUpdateHop c8FoundEnv 0 cacheIp [] =
      .ok (.done cacheIp none (some { asn := 64500, network := none }),
        cacheInsert [] cacheIp (some 64500), .yes) ∧
    cacheGet (cacheInsert [] cacheIp (some 64500)) cacheIp = some (some 64500) :=
  ⟨c8_asn_cache_behaviour.1 sampleEnv c8NegTrace cacheIp (PollSt.init []) none
      (by decide) (by decide) rfl,
    c8_asn_cache_behaviour.2.1 sampleEnv c8CachedTrace cacheIp (PollSt.init []) none
      64500 { asn := 64500, network := none } (by decide) (by decide) rfl rfl,
    c8_asn_cache_behaviour.2.2.1 c8FoundEnv 0 cacheIp [] none 64500
      { asn := 64500, network := none } rfl rfl rfl,
    c8_asn_cache_behaviour.2.2.2.2.1 [] cacheIp (some 64500)⟩

/-- Claim C5 counterexample: the claim quantifies over *every* outcome of
the random generator.  Under the constant generator (always 7), two polls
from `Trace::new` (the second after the per-hop wait time) reach a state
whose hops 0 and 1 are simultaneously `Pending` with the same `PacketId`
7 — the code never checks a fresh id against live ones. -/
theorem c5_duplicate_pending_ids :
    Trace.poll sampleEnv [] (Trace.new dstSample (sampleCfg 4)) =
      .ok (c5Step1,
        { packets := [], rngIdx := 1, sends := [(dstSample, 1, 7)], lookups := [],
          finderPolls := [], channelPolls := 1 }, .no, none) ∧
    Trace.poll { sampleEnv with now := 200 } [] c5Step1 =
      .ok (c5Step2,
        { packets := [], rngIdx := 1, sends := [(dstSample, 2, 7)], lookups := [],
          finderPolls := [], channelPolls := 1 }, .no, none) ∧
    c5Step2.hopsBuffer[0]? = some (.pending 7) ∧
    c5Step2.hopsBuffer[1]? = some (.pending 7) ∧
    ¬ PDL c5Step2.hopsBuffer := by
  refine ⟨by decide, by decide, by decide, by decide, fun hp => ?_⟩
  exact hp 0 1 7 7 (by decide) (by decide) (by decide) rfl

/-- Claim C5, amended: provided each freshly drawn `PacketId` differs from
every id currently owned by a `Pending` hop and from the other draws a
poll can make (pairwise distinctness over the at most 257 RNG indexes one
poll consults — the random-assignment assumption the design relies on,
satisfiable e.g. by any generator injective on those indexes), every
reachable trace state has pairwise-distinct ids among its
simultaneously-`Pending` hops. -/
theorem c5_pending_ids_unique_fresh {t : Trace} (h : ReachableFresh t) :
    PDL t.hopsBuffer := by
  induction h with
  | base dst cfg =>
      intro i j a b hij hi hj
      rw [Trace.new] at hi
      dsimp only at hi
      rw [List.getElem?_replicate] at hi
      split at hi
      · exact Hop.noConfusion (Option.some.inj hi)
      · exact Option.noConfusion hi
  | step env packets t out hre hfr hpoll ih => exact poll_PDL hpoll ih hfr

/-- Witness for `c5_pending_ids_unique_fresh`: one actual poll step from
`Trace::new` under a generator that satisfies the freshness hypothesis
(ids `100 + n`), landing in a state with a `Pending` hop. -/
theorem c5_pending_ids_unique_fresh_witness :
    PDL c5FreshStep1.hopsBuffer :=
  c5_pending_ids_unique_fresh
    (ReachableFresh.step c5FreshEnv [] (Trace.new dstSample (sampleCfg 4))
      (c5FreshStep1,
        { packets := [], rngIdx := 1, sends := [(dstSample, 1, 100)], lookups := [],
          finderPolls := [], channelPolls := 1 }, .no, none)
      (ReachableFresh.base dstSample (sampleCfg 4))
      ⟨fun m n hmn hm hn => by
          show (100 + m) % 65536 ≠ (100 + n) % 65536
          have hB : rngDrawBound = 257 := rfl
          omega,
        fun n i a _ _ hi => by
          rw [Trace.new] at hi
          dsimp only at hi
          rw [List.getElem?_replicate] at hi
          split at hi
          · exact Hop.noConfusion (Option.some.inj hi)
          · exact Option.noConfusion hi⟩
      (by decide))

/-- Claim C6: when `try_next` emits `TraceDone` for slot `id`, the slot is
freed and — per the claim — `next_id` becomes `min(id, next_id)`.  The
code's termination branch instead uses `min(iter_cursor, next_id)`: in the
packet-drain phase, a trace at slot 0 terminating while the cursor parks
at 1 leaves `next_id = 1` (an occupied slot) instead of 0.  The error
branch and the round-robin phase (where the cursor equals the id) do
follow the claim. -/
theorem c6_next_id_uses_cursor_not_id :
    tryNext c6Packet c6PacketDone c6NoPoll c6Ctrl =
      ({ traces := [none, some slotTrace], nextId := 1, iterCursor := 1 },
        some (.traceDone 0 [] (.termination .done))) ∧
    min 0 c6Ctrl.nextId = 0 ∧ (1 : Nat) ≠ 0 ∧
    tryNext c6Packet c6PacketErr c6NoPoll c6Ctrl =
      ({ traces := [none, some slotTrace], nextId := 0, iterCursor := 1 },
        some (.traceDone 0 [] (.error .traceroute))) ∧
    tryNext (.ok none) c6NoPoll c6NonPacketDone c6Ctrl1 =
      ({ traces := [none], nextId := 0, iterCursor := 0 },
        some (.traceDone 0 [] (.termination .done))) := by
  refine ⟨by decide, by decide, by decide, by decide, by decide⟩

end Ktr
